import Mathlib

/-!
Verification development for the climapy grid subsystem (`climapy/climapy_xr.py`):
longitude normalization (`xr_shift_lon`), grid-cell area computation (`xr_area`),
region masking (`xr_mask_bounds`), coordinate comparison
(`xr_check_lon_lat_match`) and area-weighted aggregation
(`xr_area_weighted_stat`), shallowly embedded with exact rational coordinates.
Real numbers appear only where the source computes sines and pi.
NaN masking is modeled by `Option` (`none` = masked cell); Python exceptions
are modeled by `Except XrError`.
-/

namespace Climapy

/-- Exceptions raised by the source: `ValueError` for invalid caller input,
`RuntimeError` for violated internal invariants, `KeyError` for a missing
coordinate name. -/
inductive XrError where
  | invalidInput
  | runtimeInvariant
  | keyNotFound
deriving DecidableEq

/-- Labeled grid: named longitude and latitude coordinate vectors plus a data
variable indexed by (lon, lat). This mirrors the xarray Dataset/DataArray
surface that the source manipulates. -/
structure Grid (n m : ℕ) (α : Type) where
  lonName : String
  latName : String
  lon : Fin n → ℚ
  lat : Fin m → ℚ
  data : Fin n → Fin m → α

instance {n m : ℕ} {α : Type} [DecidableEq α] : DecidableEq (Grid n m α) := fun a b =>
  decidable_of_iff
    (a.lonName = b.lonName ∧ a.latName = b.latName ∧ a.lon = b.lon ∧ a.lat = b.lat ∧
      a.data = b.data)
    (by cases a; cases b; simp [Grid.mk.injEq])

/-- Check `np.all(np.diff(v) > 0)`: consecutive entries strictly increase. -/
def pairsIncr {k : ℕ} (v : Fin k → ℚ) : Prop :=
  ∀ i j : Fin k, (i : ℕ) + 1 = (j : ℕ) → v i < v j

/-- Check `np.all(np.diff(v) < 0)`: consecutive entries strictly decrease. -/
def pairsDecr {k : ℕ} (v : Fin k → ℚ) : Prop :=
  ∀ i j : Fin k, (i : ℕ) + 1 = (j : ℕ) → v j < v i

instance {k : ℕ} (v : Fin k → ℚ) : Decidable (pairsIncr v) :=
  inferInstanceAs (Decidable (∀ i j : Fin k, (i : ℕ) + 1 = (j : ℕ) → v i < v j))

instance {k : ℕ} (v : Fin k → ℚ) : Decidable (pairsDecr v) :=
  inferInstanceAs (Decidable (∀ i j : Fin k, (i : ℕ) + 1 = (j : ℕ) → v j < v i))

/-- Per-value wrap offset, `add_360 + sub_360` of source lines 59-60. -/
def offsetFor (lon_min t : ℚ) : ℚ :=
  (if t < lon_min then 360 else 0) + (if lon_min + 360 ≤ t then -360 else 0)

/-- Index map of `np.roll` with shift `-x`: output position `i` takes input
position `(i + x) % n`. -/
def rollIdx {n : ℕ} (i : Fin n) (x : ℕ) : Fin n :=
  ⟨((i : ℕ) + x) % n, Nat.mod_lt _ i.pos⟩

/-- Compute `np.where(v == v.min())[0][0]`: first index attaining the minimum. -/
def argminFirst {k : ℕ} (v : Fin k → ℚ) : ℕ :=
  ((Fin.find fun i => ∀ j, v i ≤ v j).map Fin.val).getD 0

/-- Compute `np.where(v == v.max())[0][0]`: first index attaining the maximum. -/
def argmaxFirst {k : ℕ} (v : Fin k → ℚ) : ℕ :=
  ((Fin.find fun i => ∀ j, v j ≤ v i).map Fin.val).getD 0

/-- Longitudes after applying the wrap offsets (source line 62). -/
def shiftedLon {n : ℕ} (v : Fin n → ℚ) (lon_min : ℚ) : Fin n → ℚ :=
  fun i => v i + offsetFor lon_min (v i)

/-- Body of `xr_shift_lon` after the monotonicity check (source lines 59-68):
if any offset is nonzero, apply the offsets and roll coordinate and data along
the longitude axis so that the first entry holds the new minimum (increasing)
or maximum (decreasing). -/
def shiftLonCore {n m : ℕ} {α : Type} (g : Grid n m α) (lon_min : ℚ) (increasing : Bool) :
    Grid n m α :=
  if ∃ i, offsetFor lon_min (g.lon i) ≠ 0 then
    let newLon := shiftedLon g.lon lon_min
    let x : ℕ := cond increasing (argminFirst newLon) (argmaxFirst newLon)
    { g with lon := fun i => newLon (rollIdx i x), data := fun i j => g.data (rollIdx i x) j }
  else g

/-- Embed `xr_shift_lon` (source lines 39-69); `ValueError` when the longitude
coordinate is neither strictly increasing nor strictly decreasing. -/
def xr_shift_lon {n m : ℕ} {α : Type} (g : Grid n m α) (lon_min : ℚ) :
    Except XrError (Grid n m α) :=
  if pairsIncr g.lon then Except.ok (shiftLonCore g lon_min true)
  else if pairsDecr g.lon then Except.ok (shiftLonCore g lon_min false)
  else Except.error XrError.invalidInput

/-- Coordinate lookup by name (xarray `__getitem__`); `none` is a KeyError site. -/
def gridCoord {n m : ℕ} {α : Type} (g : Grid n m α) (s : String) : Option (List ℚ) :=
  if s = g.lonName then some (List.ofFn g.lon)
  else if s = g.latName then some (List.ofFn g.lat)
  else none

/-- Embed `xr_check_lon_lat_match` (source lines 18-36): `true` iff both named
coordinate arrays compare elementwise equal; a missing name raises KeyError
(the error value does not record which of the four accesses raised, so the
source's sequential accesses collapse into one four-way match). -/
def xr_check_lon_lat_match {n m : ℕ} {α β : Type} (g1 : Grid n m α) (g2 : Grid n m β)
    (lon_name lat_name : String) : Except XrError Bool :=
  match gridCoord g1 lon_name, gridCoord g2 lon_name,
      gridCoord g1 lat_name, gridCoord g2 lat_name with
  | some lo1, some lo2, some la1, some la2 =>
      Except.ok (decide (lo1 = lo2) && decide (la1 = la2))
  | _, _, _, _ => Except.error XrError.keyNotFound

/-- Value of `values.min()` for a nonempty coordinate array (0 when empty; the
source would raise on an empty array and no claim exercises that case). -/
def minVal {k : ℕ} (v : Fin k → ℚ) : ℚ :=
  if h : 0 < k then Finset.univ.inf' ⟨⟨0, h⟩, Finset.mem_univ _⟩ v else 0

/-- Total access into a coordinate vector; indices are used only within range
wherever the source does not raise. -/
def vget {k : ℕ} (v : Fin k → ℚ) (i : ℕ) : ℚ := if h : i < k then v ⟨i, h⟩ else 0

/-- Concatenation of the extrapolated first point, the axis, and the
extrapolated last point (source lines 102-104 and 110-112), on indices
`0..k+1`. -/
def extendedArr (k : ℕ) (v : Fin k → ℚ) : ℕ → ℚ := fun j =>
  if j = 0 then vget v 0 - (vget v 1 - vget v 0)
  else if j ≤ k then vget v (j - 1)
  else vget v (k - 1) + (vget v (k - 1) - vget v (k - 2))

/-- Cell boundaries: `np.interp` at the half-integer positions between
consecutive integer sample points is the midpoint of the two adjacent samples
(source lines 107-108 and 113). -/
def boundsArr (k : ℕ) (v : Fin k → ℚ) : ℕ → ℚ := fun j =>
  (extendedArr k v j + extendedArr k v (j + 1)) / 2

/-- Clamp a latitude boundary into [-90, 90] (source lines 114-117). -/
def clampLat (t : ℚ) : ℚ := if t < -90 then -90 else if 90 < t then 90 else t

/-- Zonal cell widths `x_width` (source lines 119-122): forward difference of
boundaries when longitudes increase, reverse-diff-reverse otherwise. -/
def xWidthQ {n : ℕ} (v : Fin n → ℚ) : Fin n → ℚ := fun i =>
  if pairsIncr v then boundsArr n v ((i : ℕ) + 1) - boundsArr n v (i : ℕ)
  else boundsArr n v (i : ℕ) - boundsArr n v ((i : ℕ) + 1)

/-- Clamped latitude boundary converted to radians, as fed to `np.sin`
(source line 130). -/
noncomputable def latBndRad (k : ℕ) (w : Fin k → ℚ) (j : ℕ) : ℝ :=
  (clampLat (boundsArr k w j) : ℝ) / 180 * Real.pi

/-- Meridional cell widths `y_width` in sin(latitude) (source lines 129-132). -/
noncomputable def yWidthR {m : ℕ} (w : Fin m → ℚ) : Fin m → ℝ := fun j =>
  if pairsIncr w then Real.sin (latBndRad m w ((j : ℕ) + 1)) - Real.sin (latBndRad m w (j : ℕ))
  else Real.sin (latBndRad m w (j : ℕ)) - Real.sin (latBndRad m w ((j : ℕ) + 1))

/-- Earth's mean radius in meters, `6371 * 1e3` (source line 84). -/
noncomputable def areaRadius : ℝ := 6371 * 1000

/-- Per-cell area `radius**2 * y_width * (x_width / 180 * np.pi)`
(source line 140), broadcast over (lon, lat); a function of the two
coordinate vectors alone. -/
noncomputable def areaDataOf {n m : ℕ} (lonV : Fin n → ℚ) (latV : Fin m → ℚ) :
    Fin n → Fin m → ℝ := fun i j =>
  areaRadius ^ 2 * yWidthR latV j * ((xWidthQ lonV i : ℝ) / 180 * Real.pi)

/-- Check `np.all(np.diff(f) > 0)` over the first `len` entries of an
ℕ-indexed array. -/
def pairsIncrUpTo (f : ℕ → ℚ) (len : ℕ) : Prop := ∀ j, j + 1 < len → f j < f (j + 1)

/-- Check `np.all(np.diff(f) < 0)` over the first `len` entries of an
ℕ-indexed array. -/
def pairsDecrUpTo (f : ℕ → ℚ) (len : ℕ) : Prop := ∀ j, j + 1 < len → f (j + 1) < f j

instance (f : ℕ → ℚ) (len : ℕ) : Decidable (pairsIncrUpTo f len) :=
  decidable_of_iff (∀ j, j < len - 1 → f j < f (j + 1)) (by
    unfold pairsIncrUpTo
    constructor
    · intro h j hj; exact h j (by omega)
    · intro h j hj; exact h j (by omega))

instance (f : ℕ → ℚ) (len : ℕ) : Decidable (pairsDecrUpTo f len) :=
  decidable_of_iff (∀ j, j < len - 1 → f (j + 1) < f j) (by
    unfold pairsDecrUpTo
    constructor
    · intro h j hj; exact h j (by omega)
    · intro h j hj; exact h j (by omega))

open Classical in
/-- Embed `xr_area` (source lines 72-154). The returned DataArray carries the
input's coordinates under the input's names. Warnings in the source
(irregular width ratio, sphere-area sanity deviation) do not affect the
returned value and are not modeled. -/
noncomputable def xr_area {n m : ℕ} (g : Grid n m ℚ) : Except XrError (Grid n m ℝ) :=
  if pairsIncr g.lon ∨ pairsDecr g.lon then
    if pairsIncr g.lat ∨ pairsDecr g.lat then
      if pairsIncrUpTo (extendedArr n g.lon) (n + 2) ∨
          pairsDecrUpTo (extendedArr n g.lon) (n + 2) then
        if ∃ i : Fin n, xWidthQ g.lon i < 0 then Except.error XrError.runtimeInvariant
        else if ∃ j : Fin m, yWidthR g.lat j < 0 then Except.error XrError.runtimeInvariant
        else
          match xr_check_lon_lat_match g
              (Grid.mk g.lonName g.latName g.lon g.lat (areaDataOf g.lon g.lat))
              g.lonName g.latName with
          | Except.error e => Except.error e
          | Except.ok true =>
              Except.ok (Grid.mk g.lonName g.latName g.lon g.lat (areaDataOf g.lon g.lat))
          | Except.ok false => Except.error XrError.runtimeInvariant
      else Except.error XrError.runtimeInvariant
    else Except.error XrError.invalidInput
  else Except.error XrError.invalidInput

/-- Nearest available source index within tolerance 1e-3, else a missing
match (pandas `get_indexer` with `method='nearest'` and `tolerance`). -/
def nearestIdx {k : ℕ} (avail : Fin k → ℚ) (t : ℚ) : Option (Fin k) :=
  (Fin.find fun i => ∀ j, |avail i - t| ≤ |avail j - t|).bind
    fun i => if |avail i - t| ≤ 1 / 1000 then some i else none

/-- Embed `reindex_like(target, method='nearest', tolerance=1e-3)` (source
line 202): the result carries the target's coordinates; each cell takes the
value at the nearest source coordinates, and is NaN when no source coordinate
lies within tolerance. -/
def reindexLike {n m : ℕ} {α β : Type} (src : Grid n m (Option α)) (tgt : Grid n m β) :
    Grid n m (Option α) :=
  { lonName := src.lonName, latName := src.latName, lon := tgt.lon, lat := tgt.lat,
    data := fun i j =>
      (nearestIdx src.lon (tgt.lon i)).bind fun a =>
        (nearestIdx src.lat (tgt.lat j)).bind fun b => src.data a b }

/-- Data after the two sequential `where` calls of the `inside` branch
(source lines 184-187): the longitude test produces the inner conditional,
the latitude test then wraps it. -/
def insideData {n m : ℕ} {α : Type} (s : Grid n m α) (lb tb : ℚ × ℚ) :
    Fin n → Fin m → Option α := fun i j =>
  if tb.1 ≤ s.lat j ∧ s.lat j ≤ tb.2 then
    (if lb.1 ≤ s.lon i ∧ s.lon i ≤ lb.2 then some (s.data i j) else none)
  else none

/-- Data after the single combined `where` call of the `outside` branch
(source lines 190-193). -/
def outsideData {n m : ℕ} {α : Type} (s : Grid n m α) (lb tb : ℚ × ℚ) :
    Fin n → Fin m → Option α := fun i j =>
  if s.lon i < lb.1 ∨ lb.2 < s.lon i ∨ s.lat j < tb.1 ∨ tb.2 < s.lat j then
    some (s.data i j)
  else none

/-- Selection step of `xr_mask_bounds` (source lines 183-196): mask the data
inside or outside the box; any other mode raises ValueError. Masked (NaN)
cells are `none`. -/
def maskSelect {n m : ℕ} {α : Type} (s : Grid n m α) (lb tb : ℚ × ℚ) (select_how : String) :
    Except XrError (Grid n m (Option α)) :=
  if select_how = "inside" then
    Except.ok { s with data := insideData s lb tb }
  else if select_how = "outside" then
    Except.ok { s with data := outsideData s lb tb }
  else Except.error XrError.invalidInput

/-- Coordinate check and reindex tail of `xr_mask_bounds` (source lines
199-207): return when the coordinates match the input; otherwise reindex to
the input's coordinates with nearest-neighbor tolerance 1e-3 and re-check,
raising RuntimeError when still mismatched. -/
def maskFinish {n m : ℕ} {α : Type} (g : Grid n m α) (r : Grid n m (Option α)) :
    Except XrError (Grid n m (Option α)) :=
  match xr_check_lon_lat_match g r g.lonName g.latName with
  | Except.error e => Except.error e
  | Except.ok true => Except.ok r
  | Except.ok false =>
    let r2 := reindexLike r g
    match xr_check_lon_lat_match g r2 g.lonName g.latName with
    | Except.error e => Except.error e
    | Except.ok true => Except.ok r2
    | Except.ok false => Except.error XrError.runtimeInvariant

/-- Embed `xr_mask_bounds` (source lines 157-207). `none` bounds default to
the full valid range. Record the original minimum longitude, shift so the
window starts at the lower longitude bound, mask, shift back, then check and
possibly reindex the coordinates. -/
def xr_mask_bounds {n m : ℕ} {α : Type} (g : Grid n m α)
    (lon_bounds lat_bounds : Option (ℚ × ℚ)) (select_how : String) :
    Except XrError (Grid n m (Option α)) :=
  let lb := lon_bounds.getD (-180, 180)
  let tb := lat_bounds.getD (-90, 90)
  let orig_lon_min := minVal g.lon
  match xr_shift_lon g lb.1 with
  | Except.error e => Except.error e
  | Except.ok s =>
    match maskSelect s lb tb select_how with
    | Except.error e => Except.error e
    | Except.ok md =>
      match xr_shift_lon md orig_lon_min with
      | Except.error e => Except.error e
      | Except.ok r => maskFinish g r

/-- Embed `xr_area_weighted_stat` (source lines 210-245). The name arguments
model the source's named dimension access: a name not carried by the grid
raises KeyError at its first use. Line 234 of the source calls
`xr_check_lon_lat_match` without forwarding `lon_name`/`lat_name`, so the
cross-check looks up the literal defaults. xarray's `sum` skips NaN, so a
masked cell contributes 0 to the numerator. -/
noncomputable def xr_area_weighted_stat {n m : ℕ} (g : Grid n m ℚ) (stat : String)
    (lon_bounds lat_bounds : Option (ℚ × ℚ)) (lon_name lat_name : String) :
    Except XrError ℝ :=
  if lon_name = g.lonName ∧ lat_name = g.latName then
    match (if lon_bounds.isSome ∨ lat_bounds.isSome then
            Except.map Grid.data (xr_mask_bounds g lon_bounds lat_bounds "inside")
          else Except.ok fun i j => some (g.data i j)) with
    | Except.error e => Except.error e
    | Except.ok d =>
      match xr_area g with
      | Except.error e => Except.error e
      | Except.ok area =>
        match xr_check_lon_lat_match g area "lon" "lat" with
        | Except.error e => Except.error e
        | Except.ok _matched =>
          if stat = "sum" then
            Except.ok (∑ i, ∑ j, (d i j).elim 0 fun v => (v : ℝ) * area.data i j)
          else if stat = "mean" then
            Except.ok ((∑ i, ∑ j, (d i j).elim 0 fun v => (v : ℝ) * area.data i j) /
              (∑ i, ∑ j, area.data i j))
          else Except.ok (-1)
  else Except.error XrError.keyNotFound

/-! Concrete grids used by counterexamples and witnesses. -/

def cgA : Grid 3 1 ℚ := ⟨"lon", "lat", ![0, 180, 400], ![0], fun i _ => (i : ℚ)⟩

def cgAout : Grid 3 1 ℚ := ⟨"lon", "lat", ![0, 180, 40], ![0], fun i _ => (i : ℚ)⟩

def wgB : Grid 3 1 ℚ := ⟨"lon", "lat", ![-170, -90, 100], ![0], fun i _ => (i : ℚ)⟩

def wgC : Grid 3 2 ℚ := ⟨"lon", "lat", ![10, 20, 340], ![0, 50], fun i j => (i : ℚ) + (j : ℚ)⟩

def wgD : Grid 3 1 ℚ := ⟨"lon", "lat", ![300, 200, 100], ![0], fun i _ => (i : ℚ)⟩

def wg5 : Grid 2 1 ℚ := ⟨"lon", "lat", ![0, 20], ![5], fun i j => (i : ℚ) + (j : ℚ)⟩

def cw8 : Grid 2 2 ℚ := ⟨"lon", "lat", ![0, 10], ![0, 10], fun i j => (i : ℚ) * (j : ℚ)⟩

def cwX : Grid 2 2 ℚ := ⟨"lon", "lat", ![0, 10], ![-45, 45], fun _ _ => (5 : ℚ)⟩

def cwY : Grid 2 2 ℚ :=
  ⟨"longitude", "latitude", ![0, 10], ![-45, 45], fun i j => (i : ℚ) - (j : ℚ)⟩

def gC1 : Grid 144 96 ℚ :=
  ⟨"lon", "lat", fun i => 0 + (360 / ((144 : ℕ) : ℚ)) * (i : ℚ),
    fun j => -90 + (180 / (((96 : ℕ) : ℚ) - 1)) * (j : ℚ), fun i j => (i : ℚ) + (j : ℚ)⟩

def cg6 : Grid 2 2 ℚ := ⟨"lon", "lat", ![0, 10], ![0, 10], fun i j => (i : ℚ) + (j : ℚ)⟩

def cg7 : Grid 3 3 ℚ := ⟨"lon", "lat", ![0, 5, 3], ![0, 2, 1], fun i j => (i : ℚ) * (j : ℚ)⟩

def gRenamed : Grid 2 2 ℚ :=
  ⟨"longitude", "latitude", ![0, 10], ![0, 10], fun _ _ => 1⟩

/-! Basic facts about consecutive-difference monotonicity, minima, and rolls. -/

lemma pairsIncr_lt {k : ℕ} {v : Fin k → ℚ} (h : pairsIncr v) :
    ∀ i j : Fin k, (i : ℕ) < (j : ℕ) → v i < v j := by
  have key : ∀ d : ℕ, ∀ i j : Fin k, (j : ℕ) = (i : ℕ) + d + 1 → v i < v j := by
    intro d
    induction d with
    | zero => intro i j hj; exact h i j (by omega)
    | succ d ih =>
        intro i j hj
        have hmid : (i : ℕ) + d + 1 < k := by have := j.isLt; omega
        have h1 := ih i ⟨(i : ℕ) + d + 1, hmid⟩ rfl
        have h2 := h ⟨(i : ℕ) + d + 1, hmid⟩ j (show ((i : ℕ) + d + 1) + 1 = (j : ℕ) by omega)
        exact lt_trans h1 h2
  intro i j hij
  exact key ((j : ℕ) - (i : ℕ) - 1) i j (by omega)

lemma pairsDecr_lt {k : ℕ} {v : Fin k → ℚ} (h : pairsDecr v) :
    ∀ i j : Fin k, (i : ℕ) < (j : ℕ) → v j < v i := by
  have key : ∀ d : ℕ, ∀ i j : Fin k, (j : ℕ) = (i : ℕ) + d + 1 → v j < v i := by
    intro d
    induction d with
    | zero => intro i j hj; exact h i j (by omega)
    | succ d ih =>
        intro i j hj
        have hmid : (i : ℕ) + d + 1 < k := by have := j.isLt; omega
        have h1 := ih i ⟨(i : ℕ) + d + 1, hmid⟩ rfl
        have h2 := h ⟨(i : ℕ) + d + 1, hmid⟩ j (show ((i : ℕ) + d + 1) + 1 = (j : ℕ) by omega)
        exact lt_trans h2 h1
  intro i j hij
  exact key ((j : ℕ) - (i : ℕ) - 1) i j (by omega)

lemma chain_lt_avoid {k : ℕ} {w : Fin k → ℚ} {c : ℕ}
    (h : ∀ a b : Fin k, (a : ℕ) + 1 = (b : ℕ) → (b : ℕ) ≠ c → w a < w b) :
    ∀ a b : Fin k, (a : ℕ) < (b : ℕ) → (∀ t : ℕ, (a : ℕ) < t → t ≤ (b : ℕ) → t ≠ c) →
      w a < w b := by
  have key : ∀ d : ℕ, ∀ a b : Fin k, (b : ℕ) = (a : ℕ) + d + 1 →
      (∀ t : ℕ, (a : ℕ) < t → t ≤ (b : ℕ) → t ≠ c) → w a < w b := by
    intro d
    induction d with
    | zero =>
        intro a b hb havoid
        exact h a b (by omega) (havoid (b : ℕ) (by omega) le_rfl)
    | succ d ih =>
        intro a b hb havoid
        have hmid : (a : ℕ) + d + 1 < k := by have := b.isLt; omega
        have h1 := ih a ⟨(a : ℕ) + d + 1, hmid⟩ rfl
          (fun t ht1 ht2 => havoid t ht1 (by
            have ht2b : t ≤ (a : ℕ) + d + 1 := ht2
            omega))
        have h2 := h ⟨(a : ℕ) + d + 1, hmid⟩ b (show ((a : ℕ) + d + 1) + 1 = (b : ℕ) by omega)
          (havoid (b : ℕ) (by omega) le_rfl)
        exact lt_trans h1 h2
  intro a b hab havoid
  exact key ((b : ℕ) - (a : ℕ) - 1) a b (by omega) havoid

lemma chain_gt_avoid {k : ℕ} {w : Fin k → ℚ} {c : ℕ}
    (h : ∀ a b : Fin k, (a : ℕ) + 1 = (b : ℕ) → (b : ℕ) ≠ c → w b < w a) :
    ∀ a b : Fin k, (a : ℕ) < (b : ℕ) → (∀ t : ℕ, (a : ℕ) < t → t ≤ (b : ℕ) → t ≠ c) →
      w b < w a := by
  have key : ∀ d : ℕ, ∀ a b : Fin k, (b : ℕ) = (a : ℕ) + d + 1 →
      (∀ t : ℕ, (a : ℕ) < t → t ≤ (b : ℕ) → t ≠ c) → w b < w a := by
    intro d
    induction d with
    | zero =>
        intro a b hb havoid
        exact h a b (by omega) (havoid (b : ℕ) (by omega) le_rfl)
    | succ d ih =>
        intro a b hb havoid
        have hmid : (a : ℕ) + d + 1 < k := by have := b.isLt; omega
        have h1 := ih a ⟨(a : ℕ) + d + 1, hmid⟩ rfl
          (fun t ht1 ht2 => havoid t ht1 (by
            have ht2b : t ≤ (a : ℕ) + d + 1 := ht2
            omega))
        have h2 := h ⟨(a : ℕ) + d + 1, hmid⟩ b (show ((a : ℕ) + d + 1) + 1 = (b : ℕ) by omega)
          (havoid (b : ℕ) (by omega) le_rfl)
        exact lt_trans h2 h1
  intro a b hab havoid
  exact key ((b : ℕ) - (a : ℕ) - 1) a b (by omega) havoid

lemma minVal_le {k : ℕ} (v : Fin k → ℚ) (i : Fin k) : minVal v ≤ v i := by
  unfold minVal
  rw [dif_pos i.pos]
  exact Finset.inf'_le _ (Finset.mem_univ i)

lemma minVal_mem {k : ℕ} (v : Fin k → ℚ) (hk : 0 < k) : ∃ i, minVal v = v i := by
  unfold minVal
  rw [dif_pos hk]
  obtain ⟨i, _, hi⟩ := Finset.exists_mem_eq_inf'
    (⟨⟨0, hk⟩, Finset.mem_univ _⟩ : (Finset.univ : Finset (Fin k)).Nonempty) v
  exact ⟨i, hi⟩

lemma rollIdx_val {k : ℕ} (i : Fin k) (x : ℕ) (hx : x < k) :
    ((rollIdx i x) : ℕ) = if (i : ℕ) + x < k then (i : ℕ) + x else (i : ℕ) + x - k := by
  have hik := i.isLt
  unfold rollIdx
  dsimp only
  split
  · exact Nat.mod_eq_of_lt (by omega)
  · rw [Nat.mod_eq_sub_mod (by omega), Nat.mod_eq_of_lt (by omega)]

lemma rollIdx_zero {k : ℕ} (i : Fin k) : rollIdx i 0 = i := by
  apply Fin.ext
  simp [rollIdx, Nat.mod_eq_of_lt i.isLt]

lemma rollIdx_comp {k : ℕ} (i : Fin k) (x y : ℕ) :
    rollIdx (rollIdx i x) y = rollIdx i (x + y) := by
  apply Fin.ext
  simp only [rollIdx]
  rw [Nat.mod_add_mod, Nat.add_assoc]

lemma rollIdx_of_mod_zero {k : ℕ} (i : Fin k) {x : ℕ} (hx : x % k = 0) : rollIdx i x = i := by
  apply Fin.ext
  simp only [rollIdx]
  obtain ⟨c, rfl⟩ := Nat.dvd_of_mod_eq_zero hx
  rw [Nat.add_mul_mod_self_left]
  exact Nat.mod_eq_of_lt i.isLt

/-! Structure of the roll performed by `shiftLonCore`: if the offset array has
a single descent (ascent) at position `c` and wraps around compatibly, then
the first minimum (maximum) sits at `c` and the rolled array is monotonic. -/

lemma argmin_roll_incr {k : ℕ} {w : Fin k → ℚ} {c : ℕ} (hc : c < k)
    (h1 : ∀ a b : Fin k, (a : ℕ) + 1 = (b : ℕ) → (b : ℕ) ≠ c → w a < w b)
    (h2 : 1 ≤ c → w ⟨k - 1, by omega⟩ < w ⟨0, by omega⟩) :
    argminFirst w = c ∧ pairsIncr fun i => w (rollIdx i c) := by
  have hafter : ∀ j : Fin k, c < (j : ℕ) → w ⟨c, hc⟩ < w j := by
    intro j hj
    exact chain_lt_avoid h1 ⟨c, hc⟩ j hj (fun t ht1 _ => by
      have ht1b : c < t := ht1
      omega)
  have hbefore0 : ∀ j : Fin k, (j : ℕ) < c → w ⟨0, by omega⟩ ≤ w j := by
    intro j hj
    rcases Nat.eq_zero_or_pos (j : ℕ) with h0 | h0
    · exact le_of_eq (congrArg w (Fin.ext (show (0 : ℕ) = (j : ℕ) by omega)))
    · exact le_of_lt (chain_lt_avoid h1 ⟨0, by omega⟩ j (show (0 : ℕ) < (j : ℕ) by omega)
        (fun t ht1 ht2 => by
          have ht2b : t ≤ (j : ℕ) := ht2
          omega))
  have hclast : w ⟨c, hc⟩ ≤ w ⟨k - 1, by omega⟩ := by
    rcases Nat.lt_or_ge c (k - 1) with h | h
    · exact le_of_lt (hafter ⟨k - 1, by omega⟩ (show c < k - 1 by omega))
    · exact le_of_eq (congrArg w (Fin.ext (show c = k - 1 by omega)))
  have hstrictbefore : ∀ j : Fin k, (j : ℕ) < c → w ⟨c, hc⟩ < w j := by
    intro j hj
    have hc1 : 1 ≤ c := by omega
    calc w ⟨c, hc⟩ ≤ w ⟨k - 1, by omega⟩ := hclast
    _ < w ⟨0, by omega⟩ := h2 hc1
    _ ≤ w j := hbefore0 j hj
  have hmin : ∀ j : Fin k, w ⟨c, hc⟩ ≤ w j := by
    intro j
    rcases lt_trichotomy (j : ℕ) c with hj | hj | hj
    · exact le_of_lt (hstrictbefore j hj)
    · exact le_of_eq (congrArg w (Fin.ext hj.symm))
    · exact le_of_lt (hafter j hj)
  have hfind : Fin.find (fun i => ∀ j, w i ≤ w j) = some ⟨c, hc⟩ := by
    rw [Fin.find_eq_some_iff]
    refine ⟨hmin, ?_⟩
    intro j hj
    by_contra hlt
    push_neg at hlt
    have hjc : (j : ℕ) < c := hlt
    have hs := hstrictbefore j hjc
    have hle := hj ⟨c, hc⟩
    linarith
  constructor
  · unfold argminFirst
    rw [hfind]
    rfl
  · intro a b hab
    show w (rollIdx a c) < w (rollIdx b c)
    have hak := a.isLt
    have hbk := b.isLt
    have hA := rollIdx_val a c hc
    have hB := rollIdx_val b c hc
    by_cases h3 : (a : ℕ) + c < k
    · rw [if_pos h3] at hA
      by_cases h4 : (b : ℕ) + c < k
      · rw [if_pos h4] at hB
        exact h1 _ _ (by omega) (by omega)
      · rw [if_neg h4] at hB
        have hc1 : 1 ≤ c := by omega
        have eA : rollIdx a c = ⟨k - 1, by omega⟩ :=
          Fin.ext (show ((rollIdx a c : Fin k) : ℕ) = k - 1 by omega)
        have eB : rollIdx b c = ⟨0, by omega⟩ :=
          Fin.ext (show ((rollIdx b c : Fin k) : ℕ) = (0 : ℕ) by omega)
        rw [eA, eB]
        exact h2 hc1
    · rw [if_neg h3] at hA
      have h4 : ¬ ((b : ℕ) + c < k) := by omega
      rw [if_neg h4] at hB
      exact h1 _ _ (by omega) (by omega)

lemma argmax_roll_decr {k : ℕ} {w : Fin k → ℚ} {c : ℕ} (hc : c < k)
    (h1 : ∀ a b : Fin k, (a : ℕ) + 1 = (b : ℕ) → (b : ℕ) ≠ c → w b < w a)
    (h2 : 1 ≤ c → w ⟨0, by omega⟩ < w ⟨k - 1, by omega⟩) :
    argmaxFirst w = c ∧ pairsDecr fun i => w (rollIdx i c) := by
  have hafter : ∀ j : Fin k, c < (j : ℕ) → w j < w ⟨c, hc⟩ := by
    intro j hj
    exact chain_gt_avoid h1 ⟨c, hc⟩ j hj (fun t ht1 _ => by
      have ht1b : c < t := ht1
      omega)
  have hbefore0 : ∀ j : Fin k, (j : ℕ) < c → w j ≤ w ⟨0, by omega⟩ := by
    intro j hj
    rcases Nat.eq_zero_or_pos (j : ℕ) with h0 | h0
    · exact le_of_eq (congrArg w (Fin.ext (show (j : ℕ) = (0 : ℕ) by omega)))
    · exact le_of_lt (chain_gt_avoid h1 ⟨0, by omega⟩ j (show (0 : ℕ) < (j : ℕ) by omega)
        (fun t ht1 ht2 => by
          have ht2b : t ≤ (j : ℕ) := ht2
          omega))
  have hclast : w ⟨k - 1, by omega⟩ ≤ w ⟨c, hc⟩ := by
    rcases Nat.lt_or_ge c (k - 1) with h | h
    · exact le_of_lt (hafter ⟨k - 1, by omega⟩ (show c < k - 1 by omega))
    · exact le_of_eq (congrArg w (Fin.ext (show k - 1 = c by omega)))
  have hstrictbefore : ∀ j : Fin k, (j : ℕ) < c → w j < w ⟨c, hc⟩ := by
    intro j hj
    have hc1 : 1 ≤ c := by omega
    calc w j ≤ w ⟨0, by omega⟩ := hbefore0 j hj
    _ < w ⟨k - 1, by omega⟩ := h2 hc1
    _ ≤ w ⟨c, hc⟩ := hclast
  have hmax : ∀ j : Fin k, w j ≤ w ⟨c, hc⟩ := by
    intro j
    rcases lt_trichotomy (j : ℕ) c with hj | hj | hj
    · exact le_of_lt (hstrictbefore j hj)
    · exact le_of_eq (congrArg w (Fin.ext hj))
    · exact le_of_lt (hafter j hj)
  have hfind : Fin.find (fun i => ∀ j, w j ≤ w i) = some ⟨c, hc⟩ := by
    rw [Fin.find_eq_some_iff]
    refine ⟨hmax, ?_⟩
    intro j hj
    by_contra hlt
    push_neg at hlt
    have hjc : (j : ℕ) < c := hlt
    have hs := hstrictbefore j hjc
    have hle := hj ⟨c, hc⟩
    linarith
  constructor
  · unfold argmaxFirst
    rw [hfind]
    rfl
  · intro a b hab
    show w (rollIdx b c) < w (rollIdx a c)
    have hak := a.isLt
    have hbk := b.isLt
    have hA := rollIdx_val a c hc
    have hB := rollIdx_val b c hc
    by_cases h3 : (a : ℕ) + c < k
    · rw [if_pos h3] at hA
      by_cases h4 : (b : ℕ) + c < k
      · rw [if_pos h4] at hB
        exact h1 _ _ (by omega) (by omega)
      · rw [if_neg h4] at hB
        have hc1 : 1 ≤ c := by omega
        have eA : rollIdx a c = ⟨k - 1, by omega⟩ :=
          Fin.ext (show ((rollIdx a c : Fin k) : ℕ) = k - 1 by omega)
        have eB : rollIdx b c = ⟨0, by omega⟩ :=
          Fin.ext (show ((rollIdx b c : Fin k) : ℕ) = (0 : ℕ) by omega)
        rw [eA, eB]
        exact h2 hc1
    · rw [if_neg h3] at hA
      have h4 : ¬ ((b : ℕ) + c < k) := by omega
      rw [if_neg h4] at hB
      exact h1 _ _ (by omega) (by omega)

lemma roll_incr_trivial {k : ℕ} {v : Fin k → ℚ} {x : ℕ} (hk : 0 < k) (hv : pairsIncr v)
    (hr : pairsIncr fun i => v (rollIdx i x)) : ∀ i : Fin k, rollIdx i x = i := by
  have hx0 : x % k = 0 := by
    by_contra hne
    set r := x % k with hr0
    have hrk : r < k := Nat.mod_lt _ hk
    have hr1 : 1 ≤ r := by omega
    have hk2 : 2 ≤ k := by omega
    have hq := Nat.div_add_mod x k
    have ha : k - 1 - r < k := by omega
    have hb : k - r < k := by omega
    have hpair : v (rollIdx ⟨k - 1 - r, ha⟩ x) < v (rollIdx ⟨k - r, hb⟩ x) :=
      hr ⟨k - 1 - r, ha⟩ ⟨k - r, hb⟩ (show (k - 1 - r) + 1 = (k - r) by omega)
    have hva : rollIdx (⟨k - 1 - r, ha⟩ : Fin k) x = ⟨k - 1, by omega⟩ := by
      apply Fin.ext
      show ((k - 1 - r) + x) % k = k - 1
      have hx : x = k * (x / k) + r := by omega
      rw [hx, show (k - 1 - r) + (k * (x / k) + r) = (k - 1) + (x / k) * k by ring_nf; omega,
        Nat.add_mul_mod_self_right]
      exact Nat.mod_eq_of_lt (by omega)
    have hvb : rollIdx (⟨k - r, hb⟩ : Fin k) x = ⟨0, hk⟩ := by
      apply Fin.ext
      show ((k - r) + x) % k = 0
      have hx : x = k * (x / k) + r := by omega
      rw [hx, show (k - r) + (k * (x / k) + r) = (1 + (x / k)) * k by ring_nf; omega]
      exact Nat.mul_mod_left _ _
    rw [hva, hvb] at hpair
    have := pairsIncr_lt hv ⟨0, hk⟩ ⟨k - 1, by omega⟩ (show (0 : ℕ) < k - 1 by omega)
    linarith
  intro i
  exact rollIdx_of_mod_zero i hx0

lemma roll_decr_trivial {k : ℕ} {v : Fin k → ℚ} {x : ℕ} (hk : 0 < k) (hv : pairsDecr v)
    (hr : pairsDecr fun i => v (rollIdx i x)) : ∀ i : Fin k, rollIdx i x = i := by
  have hx0 : x % k = 0 := by
    by_contra hne
    set r := x % k with hr0
    have hrk : r < k := Nat.mod_lt _ hk
    have hr1 : 1 ≤ r := by omega
    have hk2 : 2 ≤ k := by omega
    have hq := Nat.div_add_mod x k
    have ha : k - 1 - r < k := by omega
    have hb : k - r < k := by omega
    have hpair : v (rollIdx ⟨k - r, hb⟩ x) < v (rollIdx ⟨k - 1 - r, ha⟩ x) :=
      hr ⟨k - 1 - r, ha⟩ ⟨k - r, hb⟩ (show (k - 1 - r) + 1 = (k - r) by omega)
    have hva : rollIdx (⟨k - 1 - r, ha⟩ : Fin k) x = ⟨k - 1, by omega⟩ := by
      apply Fin.ext
      show ((k - 1 - r) + x) % k = k - 1
      have hx : x = k * (x / k) + r := by omega
      rw [hx, show (k - 1 - r) + (k * (x / k) + r) = (k - 1) + (x / k) * k by ring_nf; omega,
        Nat.add_mul_mod_self_right]
      exact Nat.mod_eq_of_lt (by omega)
    have hvb : rollIdx (⟨k - r, hb⟩ : Fin k) x = ⟨0, hk⟩ := by
      apply Fin.ext
      show ((k - r) + x) % k = 0
      have hx : x = k * (x / k) + r := by omega
      rw [hx, show (k - r) + (k * (x / k) + r) = (1 + (x / k)) * k by ring_nf; omega]
      exact Nat.mul_mod_left _ _
    rw [hva, hvb] at hpair
    have := pairsDecr_lt hv ⟨0, hk⟩ ⟨k - 1, by omega⟩ (show (0 : ℕ) < k - 1 by omega)
    linarith
  intro i
  exact rollIdx_of_mod_zero i hx0

/-! Arithmetic facts about the wrap offset. -/

lemma offsetFor_cases (M t : ℚ) :
    offsetFor M t = 360 ∨ offsetFor M t = 0 ∨ offsetFor M t = -360 := by
  unfold offsetFor
  split_ifs <;> norm_num

lemma offsetFor_of_window (M t : ℚ) (h1 : M ≤ t) (h2 : t < M + 360) : offsetFor M t = 0 := by
  unfold offsetFor
  rw [if_neg (by linarith), if_neg (by linarith)]
  norm_num

lemma offsetFor_window (M t : ℚ) (h1 : M - 360 ≤ t) (h2 : t < M + 720) :
    M ≤ t + offsetFor M t ∧ t + offsetFor M t < M + 360 := by
  unfold offsetFor
  split_ifs <;> constructor <;> linarith

lemma offsetFor_cancel (M0 M t : ℚ) (h1 : M0 ≤ t) (h2 : t < M0 + 360) :
    (t + offsetFor M t) + offsetFor M0 (t + offsetFor M t) = t := by
  rcases offsetFor_cases M t with h | h | h <;> rw [h] <;> unfold offsetFor
  · rw [if_neg (by linarith), if_pos (by linarith)]
    ring
  · rw [if_neg (by linarith), if_neg (by linarith)]
    ring
  · rw [if_pos (by linarith), if_neg (by linarith)]
    ring

lemma pairsIncr_vacuous {k : ℕ} (hk : k ≤ 1) (v : Fin k → ℚ) : pairsIncr v := by
  intro i j hij
  exact absurd j.isLt (by omega)

lemma pairsDecr_vacuous {k : ℕ} (hk : k ≤ 1) (v : Fin k → ℚ) : pairsDecr v := by
  intro i j hij
  exact absurd j.isLt (by omega)

lemma pairs_not_both {k : ℕ} (hk : 2 ≤ k) {v : Fin k → ℚ}
    (h1 : pairsIncr v) (h2 : pairsDecr v) : False := by
  have ha := h1 ⟨0, by omega⟩ ⟨1, by omega⟩ rfl
  have hb := h2 ⟨0, by omega⟩ ⟨1, by omega⟩ rfl
  linarith

/-! Structure lemma for `xr_shift_lon` on a strictly increasing longitude axis
whose values pairwise differ by less than 360: the call succeeds, the result
is the offset array rolled by some `x < n`, and the rolled coordinate is again
strictly increasing with pairwise differences below 360. -/

lemma shift_incr_struct {n m : ℕ} {α : Type} (g : Grid n m α) (M : ℚ)
    (hn : 1 ≤ n) (hv : pairsIncr g.lon)
    (hspan : ∀ i j : Fin n, g.lon i - g.lon j < 360) :
    ∃ (x : ℕ) (out : Grid n m α), x < n ∧ xr_shift_lon g M = Except.ok out ∧
      out.lonName = g.lonName ∧ out.latName = g.latName ∧ out.lat = g.lat ∧
      out.lon = (fun i => shiftedLon g.lon M (rollIdx i x)) ∧
      out.data = (fun i j => g.data (rollIdx i x) j) ∧
      pairsIncr out.lon ∧
      (∀ i j : Fin n, out.lon i - out.lon j < 360) := by
  have hshift : xr_shift_lon g M = Except.ok (shiftLonCore g M true) := by
    unfold xr_shift_lon
    rw [if_pos hv]
  by_cases hany : ∃ i, offsetFor M (g.lon i) ≠ 0
  · obtain ⟨c, hc, h1, h2, hspanW⟩ : ∃ c : ℕ, c < n ∧
        (∀ a b : Fin n, (a : ℕ) + 1 = (b : ℕ) → (b : ℕ) ≠ c →
          shiftedLon g.lon M a < shiftedLon g.lon M b) ∧
        (1 ≤ c → shiftedLon g.lon M ⟨n - 1, by omega⟩ < shiftedLon g.lon M ⟨0, by omega⟩) ∧
        (∀ i j : Fin n, shiftedLon g.lon M i - shiftedLon g.lon M j < 360) := by
      by_cases hH : ∃ i, M + 360 ≤ g.lon i
      · -- high block nonempty, hence no value sits below the window
        have hL : ∀ i, M ≤ g.lon i := by
          intro i
          by_contra hcon
          push_neg at hcon
          obtain ⟨i2, hi2⟩ := hH
          have := hspan i2 i
          linarith
        obtain ⟨cF, hcF⟩ := Option.isSome_iff_exists.mp (Fin.isSome_find_iff.mpr hH)
        have hmem : cF ∈ Fin.find (fun i : Fin n => M + 360 ≤ g.lon i) := hcF
        have hcspec : M + 360 ≤ g.lon cF := Fin.find_spec _ hmem
        have hbefore : ∀ j : Fin n, (j : ℕ) < (cF : ℕ) → g.lon j < M + 360 := by
          intro j hj
          exact not_le.mp (Fin.find_min hmem (show j < cF from hj))
        have hafterF : ∀ j : Fin n, (cF : ℕ) ≤ (j : ℕ) → M + 360 ≤ g.lon j := by
          intro j hj
          rcases eq_or_lt_of_le hj with he | hlt
          · have hej : cF = j := Fin.ext he
            rw [← hej]
            exact hcspec
          · exact le_of_lt (lt_of_le_of_lt hcspec (pairsIncr_lt hv cF j hlt))
        have hwlow : ∀ i : Fin n, (i : ℕ) < (cF : ℕ) → shiftedLon g.lon M i = g.lon i := by
          intro i hi
          unfold shiftedLon offsetFor
          rw [if_neg (not_lt.mpr (hL i)), if_neg (not_le.mpr (hbefore i hi))]
          ring
        have hwhigh : ∀ i : Fin n, (cF : ℕ) ≤ (i : ℕ) →
            shiftedLon g.lon M i = g.lon i - 360 := by
          intro i hi
          unfold shiftedLon offsetFor
          rw [if_neg (not_lt.mpr (by have := hafterF i hi; linarith)), if_pos (hafterF i hi)]
          ring
        refine ⟨(cF : ℕ), cF.isLt, ?_, ?_, ?_⟩
        · intro a b hab hbne
          rcases Nat.lt_or_ge (b : ℕ) (cF : ℕ) with hblt | hbge
          · rw [hwlow a (by omega), hwlow b hblt]
            exact hv a b hab
          · have hage : (cF : ℕ) ≤ (a : ℕ) := by omega
            rw [hwhigh a hage, hwhigh b hbge]
            have := hv a b hab
            linarith
        · intro hc1
          rw [hwhigh ⟨n - 1, by omega⟩ (show (cF : ℕ) ≤ n - 1 by have := cF.isLt; omega),
            hwlow ⟨0, by omega⟩ (show (0 : ℕ) < (cF : ℕ) by omega)]
          have := hspan ⟨n - 1, by omega⟩ ⟨0, by omega⟩
          linarith
        · intro i j
          rcases Nat.lt_or_ge (i : ℕ) (cF : ℕ) with hi | hi <;>
            rcases Nat.lt_or_ge (j : ℕ) (cF : ℕ) with hj | hj
          · rw [hwlow i hi, hwlow j hj]
            exact hspan i j
          · rw [hwlow i hi, hwhigh j hj]
            have hij : (i : ℕ) < (j : ℕ) := by omega
            have := pairsIncr_lt hv i j hij
            linarith
          · rw [hwhigh i hi, hwlow j hj]
            have := hspan i j
            linarith
          · rw [hwhigh i hi, hwhigh j hj]
            have := hspan i j
            linarith
      · push_neg at hH
        have hLex : ∃ i, g.lon i < M := by
          obtain ⟨i0, hi0⟩ := hany
          refine ⟨i0, ?_⟩
          by_contra hcon
          push_neg at hcon
          exact hi0 (offsetFor_of_window M _ hcon (hH i0))
        by_cases hMid : ∃ i : Fin n, ¬ g.lon i < M
        · obtain ⟨cF, hcF⟩ := Option.isSome_iff_exists.mp (Fin.isSome_find_iff.mpr hMid)
          have hmem : cF ∈ Fin.find (fun i : Fin n => ¬ g.lon i < M) := hcF
          have hcspec : ¬ g.lon cF < M := Fin.find_spec _ hmem
          have hbefore : ∀ j : Fin n, (j : ℕ) < (cF : ℕ) → g.lon j < M := by
            intro j hj
            exact not_not.mp (Fin.find_min hmem (show j < cF from hj))
          have hafterF : ∀ j : Fin n, (cF : ℕ) ≤ (j : ℕ) → M ≤ g.lon j := by
            intro j hj
            rcases eq_or_lt_of_le hj with he | hlt
            · have hej : cF = j := Fin.ext he
              rw [← hej]
              exact not_lt.mp hcspec
            · exact le_of_lt (lt_of_le_of_lt (not_lt.mp hcspec) (pairsIncr_lt hv cF j hlt))
          have hc1 : 1 ≤ (cF : ℕ) := by
            by_contra h0
            obtain ⟨iL, hiL⟩ := hLex
            have : M ≤ g.lon iL := hafterF iL (by omega)
            linarith
          have hwlow : ∀ i : Fin n, (i : ℕ) < (cF : ℕ) →
              shiftedLon g.lon M i = g.lon i + 360 := by
            intro i hi
            unfold shiftedLon offsetFor
            rw [if_pos (hbefore i hi), if_neg (not_le.mpr (hH i))]
            ring
          have hwhigh : ∀ i : Fin n, (cF : ℕ) ≤ (i : ℕ) → shiftedLon g.lon M i = g.lon i := by
            intro i hi
            unfold shiftedLon offsetFor
            rw [if_neg (not_lt.mpr (hafterF i hi)), if_neg (not_le.mpr (hH i))]
            ring
          refine ⟨(cF : ℕ), cF.isLt, ?_, ?_, ?_⟩
          · intro a b hab hbne
            rcases Nat.lt_or_ge (b : ℕ) (cF : ℕ) with hblt | hbge
            · rw [hwlow a (by omega), hwlow b hblt]
              have := hv a b hab
              linarith
            · have hage : (cF : ℕ) ≤ (a : ℕ) := by omega
              rw [hwhigh a hage, hwhigh b hbge]
              exact hv a b hab
          · intro hc1b
            rw [hwhigh ⟨n - 1, by omega⟩ (show (cF : ℕ) ≤ n - 1 by have := cF.isLt; omega),
              hwlow ⟨0, by omega⟩ (show (0 : ℕ) < (cF : ℕ) by omega)]
            have := hspan ⟨n - 1, by omega⟩ ⟨0, by omega⟩
            linarith
          · intro i j
            rcases Nat.lt_or_ge (i : ℕ) (cF : ℕ) with hi | hi <;>
              rcases Nat.lt_or_ge (j : ℕ) (cF : ℕ) with hj | hj
            · rw [hwlow i hi, hwlow j hj]
              have := hspan i j
              linarith
            · rw [hwlow i hi, hwhigh j hj]
              have hij : (i : ℕ) < (j : ℕ) := by omega
              have := pairsIncr_lt hv i j hij
              linarith
            · rw [hwhigh i hi, hwlow j hj]
              have := hspan i j
              linarith
            · rw [hwhigh i hi, hwhigh j hj]
              exact hspan i j
        · push_neg at hMid
          have hwall : ∀ i : Fin n, shiftedLon g.lon M i = g.lon i + 360 := by
            intro i
            unfold shiftedLon offsetFor
            rw [if_pos (hMid i), if_neg (not_le.mpr (hH i))]
            ring
          refine ⟨0, by omega, ?_, ?_, ?_⟩
          · intro a b hab hbne
            rw [hwall a, hwall b]
            have := hv a b hab
            linarith
          · intro hc1
            exact absurd hc1 (by omega)
          · intro i j
            rw [hwall i, hwall j]
            have := hspan i j
            linarith
    obtain ⟨hargmin, hmono⟩ := argmin_roll_incr hc h1 h2
    have hcore : shiftLonCore g M true =
        { g with lon := fun i => shiftedLon g.lon M (rollIdx i c),
                 data := fun i j => g.data (rollIdx i c) j } := by
      unfold shiftLonCore
      rw [if_pos hany]
      show ({ g with
          lon := fun i => shiftedLon g.lon M (rollIdx i (argminFirst (shiftedLon g.lon M))),
          data := fun i j => g.data (rollIdx i (argminFirst (shiftedLon g.lon M))) j }
        : Grid n m α) = _
      rw [hargmin]
    refine ⟨c, shiftLonCore g M true, hc, hshift, ?_, ?_, ?_, ?_, ?_, ?_, ?_⟩
    · rw [hcore]
    · rw [hcore]
    · rw [hcore]
    · rw [hcore]
    · rw [hcore]
    · rw [hcore]
      exact hmono
    · rw [hcore]
      intro i j
      exact hspanW _ _
  · have hall : ∀ i, offsetFor M (g.lon i) = 0 := by
      intro i
      by_contra hcon
      exact hany ⟨i, hcon⟩
    have hcore : shiftLonCore g M true = g := by
      unfold shiftLonCore
      rw [if_neg hany]
    have hlon0 : (fun i : Fin n => shiftedLon g.lon M (rollIdx i 0)) = g.lon := by
      funext i
      rw [rollIdx_zero]
      unfold shiftedLon
      rw [hall i]
      ring
    refine ⟨0, g, by omega, by rw [hshift, hcore], rfl, rfl, rfl, hlon0.symm, ?_, hv, hspan⟩
    funext i j
    rw [rollIdx_zero]

/-- Mirror of `shift_incr_struct` for a strictly decreasing longitude axis
(the source then rolls to the first maximum). `hnotinc` selects the
decreasing branch of the source's check. -/
lemma shift_decr_struct {n m : ℕ} {α : Type} (g : Grid n m α) (M : ℚ)
    (hn : 1 ≤ n) (hv : pairsDecr g.lon) (hnotinc : ¬ pairsIncr g.lon)
    (hspan : ∀ i j : Fin n, g.lon i - g.lon j < 360) :
    ∃ (x : ℕ) (out : Grid n m α), x < n ∧ xr_shift_lon g M = Except.ok out ∧
      out.lonName = g.lonName ∧ out.latName = g.latName ∧ out.lat = g.lat ∧
      out.lon = (fun i => shiftedLon g.lon M (rollIdx i x)) ∧
      out.data = (fun i j => g.data (rollIdx i x) j) ∧
      pairsDecr out.lon ∧
      (∀ i j : Fin n, out.lon i - out.lon j < 360) := by
  have hshift : xr_shift_lon g M = Except.ok (shiftLonCore g M false) := by
    unfold xr_shift_lon
    rw [if_neg hnotinc, if_pos hv]
  by_cases hany : ∃ i, offsetFor M (g.lon i) ≠ 0
  · obtain ⟨c, hc, h1, h2, hspanW⟩ : ∃ c : ℕ, c < n ∧
        (∀ a b : Fin n, (a : ℕ) + 1 = (b : ℕ) → (b : ℕ) ≠ c →
          shiftedLon g.lon M b < shiftedLon g.lon M a) ∧
        (1 ≤ c → shiftedLon g.lon M ⟨0, by omega⟩ < shiftedLon g.lon M ⟨n - 1, by omega⟩) ∧
        (∀ i j : Fin n, shiftedLon g.lon M i - shiftedLon g.lon M j < 360) := by
      by_cases hH : ∃ i, M + 360 ≤ g.lon i
      · -- high block nonempty, hence no value sits below the window
        have hL : ∀ i, M ≤ g.lon i := by
          intro i
          by_contra hcon
          push_neg at hcon
          obtain ⟨i2, hi2⟩ := hH
          have := hspan i2 i
          linarith
        by_cases hMid : ∃ i : Fin n, ¬ (M + 360 ≤ g.lon i)
        · obtain ⟨cF, hcF⟩ := Option.isSome_iff_exists.mp (Fin.isSome_find_iff.mpr hMid)
          have hmem : cF ∈ Fin.find (fun i : Fin n => ¬ (M + 360 ≤ g.lon i)) := hcF
          have hcspec : ¬ (M + 360 ≤ g.lon cF) := Fin.find_spec _ hmem
          have hbefore : ∀ j : Fin n, (j : ℕ) < (cF : ℕ) → M + 360 ≤ g.lon j := by
            intro j hj
            exact not_not.mp (Fin.find_min hmem (show j < cF from hj))
          have hafterF : ∀ j : Fin n, (cF : ℕ) ≤ (j : ℕ) → g.lon j < M + 360 := by
            intro j hj
            rcases eq_or_lt_of_le hj with he | hlt
            · have hej : cF = j := Fin.ext he
              rw [← hej]
              exact not_le.mp hcspec
            · exact lt_trans (pairsDecr_lt hv cF j hlt) (not_le.mp hcspec)
          have hc1 : 1 ≤ (cF : ℕ) := by
            by_contra h0
            obtain ⟨i0, hi0⟩ := hH
            have := hafterF i0 (by omega)
            linarith
          have hwhigh : ∀ i : Fin n, (i : ℕ) < (cF : ℕ) →
              shiftedLon g.lon M i = g.lon i - 360 := by
            intro i hi
            unfold shiftedLon offsetFor
            rw [if_neg (not_lt.mpr (hL i)), if_pos (hbefore i hi)]
            ring
          have hwmid : ∀ i : Fin n, (cF : ℕ) ≤ (i : ℕ) → shiftedLon g.lon M i = g.lon i := by
            intro i hi
            unfold shiftedLon offsetFor
            rw [if_neg (not_lt.mpr (hL i)), if_neg (not_le.mpr (hafterF i hi))]
            ring
          refine ⟨(cF : ℕ), cF.isLt, ?_, ?_, ?_⟩
          · intro a b hab hbne
            rcases Nat.lt_or_ge (b : ℕ) (cF : ℕ) with hblt | hbge
            · rw [hwhigh a (by omega), hwhigh b hblt]
              have := hv a b hab
              linarith
            · have hage : (cF : ℕ) ≤ (a : ℕ) := by omega
              rw [hwmid a hage, hwmid b hbge]
              exact hv a b hab
          · intro hc1b
            rw [hwmid ⟨n - 1, by omega⟩ (show (cF : ℕ) ≤ n - 1 by have := cF.isLt; omega),
              hwhigh ⟨0, by omega⟩ (show (0 : ℕ) < (cF : ℕ) by omega)]
            have := hspan ⟨0, by omega⟩ ⟨n - 1, by omega⟩
            linarith
          · intro i j
            rcases Nat.lt_or_ge (i : ℕ) (cF : ℕ) with hi | hi <;>
              rcases Nat.lt_or_ge (j : ℕ) (cF : ℕ) with hj | hj
            · rw [hwhigh i hi, hwhigh j hj]
              have := hspan i j
              linarith
            · rw [hwhigh i hi, hwmid j hj]
              have := hspan i j
              linarith
            · rw [hwmid i hi, hwhigh j hj]
              have hij : (j : ℕ) < (i : ℕ) := by omega
              have := pairsDecr_lt hv j i hij
              linarith
            · rw [hwmid i hi, hwmid j hj]
              exact hspan i j
        · push_neg at hMid
          have hwall : ∀ i : Fin n, shiftedLon g.lon M i = g.lon i - 360 := by
            intro i
            unfold shiftedLon offsetFor
            rw [if_neg (not_lt.mpr (hL i)), if_pos (hMid i)]
            ring
          refine ⟨0, by omega, ?_, ?_, ?_⟩
          · intro a b hab hbne
            rw [hwall a, hwall b]
            have := hv a b hab
            linarith
          · intro hc1
            exact absurd hc1 (by omega)
          · intro i j
            rw [hwall i, hwall j]
            have := hspan i j
            linarith
      · push_neg at hH
        have hLex : ∃ i, g.lon i < M := by
          obtain ⟨i0, hi0⟩ := hany
          refine ⟨i0, ?_⟩
          by_contra hcon
          push_neg at hcon
          exact hi0 (offsetFor_of_window M _ hcon (hH i0))
        obtain ⟨cF, hcF⟩ := Option.isSome_iff_exists.mp (Fin.isSome_find_iff.mpr hLex)
        have hmem : cF ∈ Fin.find (fun i : Fin n => g.lon i < M) := hcF
        have hcspec : g.lon cF < M := Fin.find_spec _ hmem
        have hbefore : ∀ j : Fin n, (j : ℕ) < (cF : ℕ) → M ≤ g.lon j := by
          intro j hj
          exact not_lt.mp (Fin.find_min hmem (show j < cF from hj))
        have hafterF : ∀ j : Fin n, (cF : ℕ) ≤ (j : ℕ) → g.lon j < M := by
          intro j hj
          rcases eq_or_lt_of_le hj with he | hlt
          · have hej : cF = j := Fin.ext he
            rw [← hej]
            exact hcspec
          · exact lt_trans (pairsDecr_lt hv cF j hlt) hcspec
        have hwmid : ∀ i : Fin n, (i : ℕ) < (cF : ℕ) → shiftedLon g.lon M i = g.lon i := by
          intro i hi
          unfold shiftedLon offsetFor
          rw [if_neg (not_lt.mpr (hbefore i hi)), if_neg (not_le.mpr (hH i))]
          ring
        have hwlow : ∀ i : Fin n, (cF : ℕ) ≤ (i : ℕ) →
            shiftedLon g.lon M i = g.lon i + 360 := by
          intro i hi
          unfold shiftedLon offsetFor
          rw [if_pos (hafterF i hi), if_neg (not_le.mpr (hH i))]
          ring
        refine ⟨(cF : ℕ), cF.isLt, ?_, ?_, ?_⟩
        · intro a b hab hbne
          rcases Nat.lt_or_ge (b : ℕ) (cF : ℕ) with hblt | hbge
          · rw [hwmid a (by omega), hwmid b hblt]
            exact hv a b hab
          · have hage : (cF : ℕ) ≤ (a : ℕ) := by omega
            rw [hwlow a hage, hwlow b hbge]
            have := hv a b hab
            linarith
        · intro hc1b
          rw [hwlow ⟨n - 1, by omega⟩ (show (cF : ℕ) ≤ n - 1 by have := cF.isLt; omega),
            hwmid ⟨0, by omega⟩ (show (0 : ℕ) < (cF : ℕ) by omega)]
          have := hspan ⟨0, by omega⟩ ⟨n - 1, by omega⟩
          linarith
        · intro i j
          rcases Nat.lt_or_ge (i : ℕ) (cF : ℕ) with hi | hi <;>
            rcases Nat.lt_or_ge (j : ℕ) (cF : ℕ) with hj | hj
          · rw [hwmid i hi, hwmid j hj]
            exact hspan i j
          · rw [hwmid i hi, hwlow j hj]
            have := hspan i j
            linarith
          · rw [hwlow i hi, hwmid j hj]
            have hij : (j : ℕ) < (i : ℕ) := by omega
            have := pairsDecr_lt hv j i hij
            linarith
          · rw [hwlow i hi, hwlow j hj]
            have := hspan i j
            linarith
    obtain ⟨hargmax, hmono⟩ := argmax_roll_decr hc h1 h2
    have hcore : shiftLonCore g M false =
        { g with lon := fun i => shiftedLon g.lon M (rollIdx i c),
                 data := fun i j => g.data (rollIdx i c) j } := by
      unfold shiftLonCore
      rw [if_pos hany]
      show ({ g with
          lon := fun i => shiftedLon g.lon M (rollIdx i (argmaxFirst (shiftedLon g.lon M))),
          data := fun i j => g.data (rollIdx i (argmaxFirst (shiftedLon g.lon M))) j }
        : Grid n m α) = _
      rw [hargmax]
    refine ⟨c, shiftLonCore g M false, hc, hshift, ?_, ?_, ?_, ?_, ?_, ?_, ?_⟩
    · rw [hcore]
    · rw [hcore]
    · rw [hcore]
    · rw [hcore]
    · rw [hcore]
    · rw [hcore]
      exact hmono
    · rw [hcore]
      intro i j
      exact hspanW _ _
  · have hall : ∀ i, offsetFor M (g.lon i) = 0 := by
      intro i
      by_contra hcon
      exact hany ⟨i, hcon⟩
    have hcore : shiftLonCore g M false = g := by
      unfold shiftLonCore
      rw [if_neg hany]
    have hlon0 : (fun i : Fin n => shiftedLon g.lon M (rollIdx i 0)) = g.lon := by
      funext i
      rw [rollIdx_zero]
      unfold shiftedLon
      rw [hall i]
      ring
    refine ⟨0, g, by omega, by rw [hshift, hcore], rfl, rfl, rfl, hlon0.symm, ?_, hv, hspan⟩
    funext i j
    rw [rollIdx_zero]

/-- Direction-agnostic packaging of the two structure lemmas. -/
lemma shift_struct {n m : ℕ} {α : Type} (g : Grid n m α) (M : ℚ)
    (hn : 1 ≤ n) (hmono : pairsIncr g.lon ∨ pairsDecr g.lon)
    (hspan : ∀ i j : Fin n, g.lon i - g.lon j < 360) :
    ∃ (x : ℕ) (out : Grid n m α), x < n ∧ xr_shift_lon g M = Except.ok out ∧
      out.lonName = g.lonName ∧ out.latName = g.latName ∧ out.lat = g.lat ∧
      out.lon = (fun i => shiftedLon g.lon M (rollIdx i x)) ∧
      out.data = (fun i j => g.data (rollIdx i x) j) ∧
      (pairsIncr g.lon → pairsIncr out.lon) ∧ (pairsDecr g.lon → pairsDecr out.lon) ∧
      (∀ i j : Fin n, out.lon i - out.lon j < 360) := by
  by_cases hinc : pairsIncr g.lon
  · obtain ⟨x, out, hx, hok, e1, e2, e3, e4, e5, hmo, hsp⟩ :=
      shift_incr_struct g M hn hinc hspan
    refine ⟨x, out, hx, hok, e1, e2, e3, e4, e5, fun _ => hmo, ?_, hsp⟩
    intro hdec
    rcases Nat.lt_or_ge n 2 with hn2 | hn2
    · exact pairsDecr_vacuous (by omega) _
    · exact absurd hdec (fun hdec => pairs_not_both hn2 hinc hdec)
  · have hdec : pairsDecr g.lon := hmono.resolve_left hinc
    obtain ⟨x, out, hx, hok, e1, e2, e3, e4, e5, hmo, hsp⟩ :=
      shift_decr_struct g M hn hdec hinc hspan
    exact ⟨x, out, hx, hok, e1, e2, e3, e4, e5, fun hi => absurd hi hinc, fun _ => hmo, hsp⟩

/-- Shifting back to the original minimum longitude undoes a previous shift:
applied to any grid `h` whose longitude axis is a rolled offset image of
`g.lon`, the second `xr_shift_lon` returns exactly `g.lon` as coordinates and
un-rolls the data. -/
lemma shift_restore {n m m2 : ℕ} {α β : Type} (g : Grid n m α) (h : Grid n m2 β)
    (M : ℚ) (x : ℕ) (hn : 1 ≤ n)
    (hspan : ∀ i j : Fin n, g.lon i - g.lon j < 360)
    (hlon : h.lon = fun i => shiftedLon g.lon M (rollIdx i x))
    (hdir : (pairsIncr g.lon ∧ pairsIncr h.lon) ∨ (pairsDecr g.lon ∧ pairsDecr h.lon))
    (hhspan : ∀ i j : Fin n, h.lon i - h.lon j < 360) :
    ∃ r : Grid n m2 β, xr_shift_lon h (minVal g.lon) = Except.ok r ∧
      r.lonName = h.lonName ∧ r.latName = h.latName ∧ r.lat = h.lat ∧
      r.lon = g.lon ∧
      ∃ y : ℕ, (∀ i : Fin n, rollIdx (rollIdx i y) x = i) ∧
        (∀ i j, r.data i j = h.data (rollIdx i y) j) := by
  have hmono2 : pairsIncr h.lon ∨ pairsDecr h.lon := by
    rcases hdir with ⟨_, hh⟩ | ⟨_, hh⟩
    · exact Or.inl hh
    · exact Or.inr hh
  obtain ⟨y, r, hy, hok, e1, e2, e3, e4, e5, hi2, hd2, _⟩ :=
    shift_struct h (minVal g.lon) hn hmono2 hhspan
  have hwin : ∀ a : Fin n, minVal g.lon ≤ g.lon a ∧ g.lon a < minVal g.lon + 360 := by
    intro a
    refine ⟨minVal_le g.lon a, ?_⟩
    obtain ⟨i0, hi0⟩ := minVal_mem g.lon (by omega)
    have := hspan a i0
    rw [hi0]
    linarith
  have hcomp : ∀ i : Fin n, shiftedLon h.lon (minVal g.lon) i = g.lon (rollIdx i x) := by
    intro i
    have hh : h.lon i = shiftedLon g.lon M (rollIdx i x) := by rw [hlon]
    show h.lon i + offsetFor (minVal g.lon) (h.lon i) = g.lon (rollIdx i x)
    rw [hh]
    show (g.lon (rollIdx i x) + offsetFor M (g.lon (rollIdx i x))) +
        offsetFor (minVal g.lon) (g.lon (rollIdx i x) + offsetFor M (g.lon (rollIdx i x))) = _
    exact offsetFor_cancel _ _ _ (hwin _).1 (hwin _).2
  have hrlon : r.lon = fun i => g.lon (rollIdx i (y + x)) := by
    rw [e4]
    funext i
    rw [hcomp, rollIdx_comp]
  have hroll : ∀ i : Fin n, rollIdx i (y + x) = i := by
    rcases hdir with ⟨hg, hh⟩ | ⟨hg, hh⟩
    · refine roll_incr_trivial (by omega) hg ?_
      rw [← hrlon]
      exact hi2 hh
    · refine roll_decr_trivial (by omega) hg ?_
      rw [← hrlon]
      exact hd2 hh
  have hlon_eq : r.lon = g.lon := by
    rw [hrlon]
    funext i
    rw [hroll i]
  refine ⟨r, hok, e1, e2, e3, hlon_eq, y, ?_, ?_⟩
  · intro i
    rw [rollIdx_comp]
    exact hroll i
  · intro i j
    rw [e5]

/-- C2 (amended): for a strictly monotonic longitude axis whose values all lie
within one 360-degree wrap of the window `[M, M+360)` and — as the
counterexample forces — whose values pairwise differ by less than 360,
`xr_shift_lon` returns a grid whose longitudes all lie in `[M, M+360)`,
each obtained from one input value by adding or subtracting exactly one
multiple of 360 (offset 0 for values already in range), with the data rolled
circularly by the same rotation, and the output longitude axis is again
strictly monotonic in the same direction as the input. -/
theorem claim_C2 {n m : ℕ} {α : Type} (g : Grid n m α) (M : ℚ)
    (hn : 1 ≤ n)
    (hmono : pairsIncr g.lon ∨ pairsDecr g.lon)
    (hwin : ∀ i, M - 360 ≤ g.lon i ∧ g.lon i < M + 720)
    (hspan : ∀ i j : Fin n, g.lon i - g.lon j < 360) :
    ∃ out : Grid n m α, xr_shift_lon g M = Except.ok out ∧
      (∃ x : ℕ, x < n ∧ ∀ i : Fin n,
        out.lon i = g.lon (rollIdx i x) + offsetFor M (g.lon (rollIdx i x)) ∧
        (offsetFor M (g.lon (rollIdx i x)) = 360 ∨ offsetFor M (g.lon (rollIdx i x)) = 0 ∨
          offsetFor M (g.lon (rollIdx i x)) = -360) ∧
        (M ≤ g.lon (rollIdx i x) ∧ g.lon (rollIdx i x) < M + 360 →
          offsetFor M (g.lon (rollIdx i x)) = 0) ∧
        M ≤ out.lon i ∧ out.lon i < M + 360 ∧
        (∀ j, out.data i j = g.data (rollIdx i x) j)) ∧
      (pairsIncr g.lon → pairsIncr out.lon) ∧ (pairsDecr g.lon → pairsDecr out.lon) := by
  obtain ⟨x, out, hx, hok, e1, e2, e3, e4, e5, hio, hdo, _⟩ := shift_struct g M hn hmono hspan
  refine ⟨out, hok, ⟨x, hx, ?_⟩, hio, hdo⟩
  intro i
  have hli : out.lon i = shiftedLon g.lon M (rollIdx i x) := by rw [e4]
  have hdi : ∀ j, out.data i j = g.data (rollIdx i x) j := by
    intro j
    rw [e5]
  refine ⟨hli, offsetFor_cases M _, fun hw => offsetFor_of_window M _ hw.1 hw.2, ?_, ?_, hdi⟩
  · rw [hli]
    exact (offsetFor_window M _ (hwin _).1 (hwin _).2).1
  · rw [hli]
    exact (offsetFor_window M _ (hwin _).1 (hwin _).2).2

/-- C4 (amended): for a nonempty strictly monotonic longitude axis whose
values pairwise differ by less than 360 degrees, shifting to an arbitrary
window minimum `X` and then shifting back to the original minimum longitude
reproduces the original grid's data and coordinate arrays exactly (hence in
particular within the stated reconciliation tolerance). -/
theorem claim_C4 {n m : ℕ} {α : Type} (g : Grid n m α) (X : ℚ) (hn : 1 ≤ n)
    (hmono : pairsIncr g.lon ∨ pairsDecr g.lon)
    (hspan : ∀ i j : Fin n, g.lon i - g.lon j < 360) :
    ∃ (g1 g2 : Grid n m α), xr_shift_lon g X = Except.ok g1 ∧
      xr_shift_lon g1 (minVal g.lon) = Except.ok g2 ∧
      g2.lon = g.lon ∧ g2.lat = g.lat ∧ g2.data = g.data := by
  obtain ⟨x, g1, hx, hok1, e1, e2, e3, e4, e5, hio, hdo, hsp1⟩ := shift_struct g X hn hmono hspan
  have hdir : (pairsIncr g.lon ∧ pairsIncr g1.lon) ∨ (pairsDecr g.lon ∧ pairsDecr g1.lon) := by
    rcases hmono with hI | hD
    · exact Or.inl ⟨hI, hio hI⟩
    · exact Or.inr ⟨hD, hdo hD⟩
  obtain ⟨r, hok2, f1, f2, f3, f4, y, hcomp, hdata⟩ :=
    shift_restore g g1 X x hn hspan e4 hdir hsp1
  refine ⟨g1, r, hok1, hok2, f4, by rw [f3, e3], ?_⟩
  funext i j
  simp only [hdata, e5, hcomp]

/-! Facts about the coordinate check and field preservation along the
masking pipeline. -/

lemma check_ok_true {n m : ℕ} {α β : Type} (g1 : Grid n m α) (g2 : Grid n m β)
    (h1 : g2.lonName = g1.lonName) (h2 : g2.latName = g1.latName)
    (h3 : g2.lon = g1.lon) (h4 : g2.lat = g1.lat) :
    xr_check_lon_lat_match g1 g2 g1.lonName g1.latName = Except.ok true := by
  unfold xr_check_lon_lat_match gridCoord
  rw [h1, h2, h3, h4]
  by_cases hc : g1.latName = g1.lonName
  · simp [hc]
  · simp [hc]

lemma check_ok_true_lon {n m : ℕ} {α β : Type} {g1 : Grid n m α} {g2 : Grid n m β}
    {lat_name : String} (h1 : g2.lonName = g1.lonName)
    (hok : xr_check_lon_lat_match g1 g2 g1.lonName lat_name = Except.ok true) :
    g2.lon = g1.lon := by
  unfold xr_check_lon_lat_match at hok
  split at hok
  case _ lo1 lo2 la1 la2 e1 e2 e3 e4 =>
    have hl1 : lo1 = List.ofFn g1.lon := by
      unfold gridCoord at e1
      rw [if_pos rfl] at e1
      exact (Option.some.injEq _ _ ▸ e1).symm
    have hl2 : lo2 = List.ofFn g2.lon := by
      unfold gridCoord at e2
      rw [if_pos h1.symm] at e2
      exact (Option.some.injEq _ _ ▸ e2).symm
    have hb : decide (lo1 = lo2) = true := by
      have := (Except.ok.injEq _ _).mp hok
      exact (Bool.and_eq_true_iff.mp this).1
    have : lo1 = lo2 := of_decide_eq_true hb
    rw [hl1, hl2] at this
    exact List.ofFn_injective this.symm
  case _ => exact absurd hok (by simp)

lemma shiftLonCore_fields {n m : ℕ} {α : Type} (g : Grid n m α) (M : ℚ) (b : Bool) :
    (shiftLonCore g M b).lonName = g.lonName ∧ (shiftLonCore g M b).latName = g.latName ∧
      (shiftLonCore g M b).lat = g.lat := by
  unfold shiftLonCore
  split
  · exact ⟨rfl, rfl, rfl⟩
  · exact ⟨rfl, rfl, rfl⟩

lemma shift_preserves {n m : ℕ} {α : Type} {g out : Grid n m α} {M : ℚ}
    (h : xr_shift_lon g M = Except.ok out) :
    out.lonName = g.lonName ∧ out.latName = g.latName ∧ out.lat = g.lat := by
  unfold xr_shift_lon at h
  split at h
  · injection h with h2
    rw [← h2]
    exact shiftLonCore_fields g M true
  · split at h
    · injection h with h2
      rw [← h2]
      exact shiftLonCore_fields g M false
    · exact absurd h (by simp)


lemma maskSelect_fields {n m : ℕ} {α : Type} {s : Grid n m α} {lb tb : ℚ × ℚ} {how : String}
    {md : Grid n m (Option α)} (h : maskSelect s lb tb how = Except.ok md) :
    md.lonName = s.lonName ∧ md.latName = s.latName ∧ md.lon = s.lon ∧ md.lat = s.lat := by
  unfold maskSelect at h
  split_ifs at h
  · injection h with h2
    rw [← h2]
    exact ⟨rfl, rfl, rfl, rfl⟩
  · injection h with h2
    rw [← h2]
    exact ⟨rfl, rfl, rfl, rfl⟩

lemma maskFinish_ok {n m : ℕ} {α : Type} {g : Grid n m α} {r out : Grid n m (Option α)}
    (hname : r.lonName = g.lonName) (hlat : r.lat = g.lat)
    (h : maskFinish g r = Except.ok out) : out.lon = g.lon ∧ out.lat = g.lat := by
  unfold maskFinish at h
  rcases hchk : xr_check_lon_lat_match g r g.lonName g.latName with e | b
  · rw [hchk] at h
    simp at h
  · rw [hchk] at h
    rcases b with _ | _
    · dsimp only at h
      rcases hchk2 : xr_check_lon_lat_match g (reindexLike r g) g.lonName g.latName with e2 | b2
      · rw [hchk2] at h
        simp at h
      · rw [hchk2] at h
        rcases b2 with _ | _
        · simp at h
        · simp at h
          rw [← h]
          exact ⟨rfl, rfl⟩
    · simp at h
      rw [← h]
      exact ⟨check_ok_true_lon hname hchk, hlat⟩

/-- C5: whenever `xr_mask_bounds` returns normally, the output grid carries
the input grid's longitude and latitude coordinate arrays unchanged — the
masking pipeline alters data only; failure modes return errors instead. -/
theorem claim_C5 {n m : ℕ} {α : Type} (g : Grid n m α) (lb tb : Option (ℚ × ℚ))
    (how : String) (out : Grid n m (Option α))
    (_hmono : pairsIncr g.lon ∨ pairsDecr g.lon)
    (hok : xr_mask_bounds g lb tb how = Except.ok out) :
    out.lon = g.lon ∧ out.lat = g.lat := by
  simp only [xr_mask_bounds] at hok
  rcases h1 : xr_shift_lon g ((lb.getD (-180, 180)).1) with e | s
  · rw [h1] at hok
    simp at hok
  · rw [h1] at hok
    dsimp only at hok
    rcases h2 : maskSelect s (lb.getD (-180, 180)) (tb.getD (-90, 90)) how with e | md
    · rw [h2] at hok
      simp at hok
    · rw [h2] at hok
      dsimp only at hok
      rcases h3 : xr_shift_lon md (minVal g.lon) with e | r
      · rw [h3] at hok
        simp at hok
      · rw [h3] at hok
        dsimp only at hok
        obtain ⟨p1, p2, p3⟩ := shift_preserves h1
        obtain ⟨q1, q2, q3, q4⟩ := maskSelect_fields h2
        obtain ⟨t1, t2, t3⟩ := shift_preserves h3
        exact maskFinish_ok (by rw [t1, q1, p1]) (by rw [t3, q4, p3]) hok

lemma maskSelect_inside {n m : ℕ} {α : Type} (s : Grid n m α) (lb tb : ℚ × ℚ) :
    maskSelect s lb tb "inside" = Except.ok { s with data := insideData s lb tb } := by
  unfold maskSelect
  rw [if_pos rfl]

lemma maskSelect_outside {n m : ℕ} {α : Type} (s : Grid n m α) (lb tb : ℚ × ℚ) :
    maskSelect s lb tb "outside" = Except.ok { s with data := outsideData s lb tb } := by
  unfold maskSelect
  rw [if_neg (by decide), if_pos rfl]

lemma maskFinish_eq_ok {n m : ℕ} {α : Type} {g : Grid n m α} {r : Grid n m (Option α)}
    (h1 : r.lonName = g.lonName) (h2 : r.latName = g.latName)
    (h3 : r.lon = g.lon) (h4 : r.lat = g.lat) : maskFinish g r = Except.ok r := by
  unfold maskFinish
  rw [check_ok_true g r h1 h2 h3 h4]

/-- C3 (amended): for a strictly monotonic longitude axis whose values
pairwise differ by less than 360 degrees — the counterexample shows the claim
fails without this — the "inside" and "outside" masks of the same bounds
partition the grid: summing the two masked results elementwise with missing
values read as 0 reproduces the original data exactly. -/
theorem claim_C3 {n m : ℕ} (g : Grid n m ℚ) (lonB latB : ℚ × ℚ) (hn : 1 ≤ n)
    (hmono : pairsIncr g.lon ∨ pairsDecr g.lon)
    (hspan : ∀ i j : Fin n, g.lon i - g.lon j < 360) :
    ∃ (gi go : Grid n m (Option ℚ)),
      xr_mask_bounds g (some lonB) (some latB) "inside" = Except.ok gi ∧
      xr_mask_bounds g (some lonB) (some latB) "outside" = Except.ok go ∧
      ∀ i j, (gi.data i j).getD 0 + (go.data i j).getD 0 = g.data i j := by
  obtain ⟨x, s, hx, hok1, e1, e2, e3, e4, e5, hio, hdo, hsp1⟩ :=
    shift_struct g lonB.1 hn hmono hspan
  have hdirS : (pairsIncr g.lon ∧ pairsIncr s.lon) ∨ (pairsDecr g.lon ∧ pairsDecr s.lon) := by
    rcases hmono with hI | hD
    · exact Or.inl ⟨hI, hio hI⟩
    · exact Or.inr ⟨hD, hdo hD⟩
  obtain ⟨ri, hok2i, fi1, fi2, fi3, fi4, yi, hci, hdi⟩ :=
    shift_restore g { s with data := insideData s lonB latB } lonB.1 x hn hspan e4 hdirS hsp1
  obtain ⟨ro, hok2o, fo1, fo2, fo3, fo4, yo, hco, hdo2⟩ :=
    shift_restore g { s with data := outsideData s lonB latB } lonB.1 x hn hspan e4 hdirS hsp1
  have hevi : xr_mask_bounds g (some lonB) (some latB) "inside" = Except.ok ri := by
    unfold xr_mask_bounds
    simp only [Option.getD_some]
    rw [hok1]
    dsimp only
    rw [maskSelect_inside]
    dsimp only
    rw [hok2i]
    dsimp only
    exact maskFinish_eq_ok (by rw [fi1]; exact e1) (by rw [fi2]; exact e2) fi4
      (by rw [fi3]; exact e3)
  have hevo : xr_mask_bounds g (some lonB) (some latB) "outside" = Except.ok ro := by
    unfold xr_mask_bounds
    simp only [Option.getD_some]
    rw [hok1]
    dsimp only
    rw [maskSelect_outside]
    dsimp only
    rw [hok2o]
    dsimp only
    exact maskFinish_eq_ok (by rw [fo1]; exact e1) (by rw [fo2]; exact e2) fo4
      (by rw [fo3]; exact e3)
  refine ⟨ri, ro, hevi, hevo, ?_⟩
  intro i j
  have hri : ri.data i j = insideData s lonB latB (rollIdx i yi) j := hdi i j
  have hro : ro.data i j = outsideData s lonB latB (rollIdx i yo) j := hdo2 i j
  have hsloni : s.lon (rollIdx i yi) = shiftedLon g.lon lonB.1 i := by
    rw [e4]
    show shiftedLon g.lon lonB.1 (rollIdx (rollIdx i yi) x) = _
    rw [hci i]
  have hslono : s.lon (rollIdx i yo) = shiftedLon g.lon lonB.1 i := by
    rw [e4]
    show shiftedLon g.lon lonB.1 (rollIdx (rollIdx i yo) x) = _
    rw [hco i]
  have hsdatai : s.data (rollIdx i yi) j = g.data i j := by
    rw [e5]
    show g.data (rollIdx (rollIdx i yi) x) j = _
    rw [hci i]
  have hsdatao : s.data (rollIdx i yo) j = g.data i j := by
    rw [e5]
    show g.data (rollIdx (rollIdx i yo) x) j = _
    rw [hco i]
  rw [hri, hro]
  unfold insideData outsideData
  rw [hsloni, hslono, hsdatai, hsdatao]
  by_cases hP : lonB.1 ≤ shiftedLon g.lon lonB.1 i ∧ shiftedLon g.lon lonB.1 i ≤ lonB.2 <;>
    by_cases hQ : latB.1 ≤ s.lat j ∧ s.lat j ≤ latB.2
  · rw [if_pos hQ, if_pos hP, if_neg (by push_neg; exact ⟨hP.1, hP.2, hQ.1, hQ.2⟩)]
    simp
  · rw [if_neg hQ, if_pos (by
      rcases not_and_or.mp hQ with h | h
      · exact Or.inr (Or.inr (Or.inl (not_le.mp h)))
      · exact Or.inr (Or.inr (Or.inr (not_le.mp h))))]
    simp
  · rw [if_pos hQ, if_neg hP, if_pos (by
      rcases not_and_or.mp hP with h | h
      · exact Or.inl (not_le.mp h)
      · exact Or.inr (Or.inl (not_le.mp h)))]
    simp
  · rw [if_neg hQ, if_pos (by
      rcases not_and_or.mp hQ with h | h
      · exact Or.inr (Or.inr (Or.inl (not_le.mp h)))
      · exact Or.inr (Or.inr (Or.inr (not_le.mp h))))]
    simp


lemma xr_shift_lon_err {n m : ℕ} {α : Type} (g : Grid n m α) (M : ℚ)
    (h : ¬ (pairsIncr g.lon ∨ pairsDecr g.lon)) :
    xr_shift_lon g M = Except.error XrError.invalidInput := by
  push_neg at h
  unfold xr_shift_lon
  rw [if_neg h.1, if_neg h.2]

lemma xr_shift_lon_noop {n m : ℕ} {α : Type} (g : Grid n m α) (M : ℚ)
    (hmono : pairsIncr g.lon ∨ pairsDecr g.lon)
    (hall : ∀ i, offsetFor M (g.lon i) = 0) : xr_shift_lon g M = Except.ok g := by
  have hno : ¬ ∃ i, offsetFor M (g.lon i) ≠ 0 := by
    push_neg
    exact hall
  unfold xr_shift_lon shiftLonCore
  by_cases hinc : pairsIncr g.lon
  · rw [if_pos hinc, if_neg hno]
  · rw [if_neg hinc, if_pos (hmono.resolve_left hinc), if_neg hno]

lemma minVal_of_incr {k : ℕ} {v : Fin k → ℚ} (hk : 0 < k) (hv : pairsIncr v) :
    minVal v = v ⟨0, hk⟩ := by
  obtain ⟨i0, hi0⟩ := minVal_mem v hk
  refine le_antisymm (minVal_le v _) ?_
  rw [hi0]
  rcases Nat.eq_zero_or_pos (i0 : ℕ) with h0 | h0
  · exact le_of_eq (congrArg v (Fin.ext (show (0 : ℕ) = (i0 : ℕ) by omega)))
  · exact le_of_lt (pairsIncr_lt hv ⟨0, hk⟩ i0 h0)

lemma cgA_w : shiftedLon cgA.lon 0 = ![(0 : ℚ), 180, 40] := by
  funext i
  fin_cases i <;> norm_num [shiftedLon, offsetFor, cgA]

lemma cgA_argmin : argminFirst (shiftedLon cgA.lon 0) = 0 := by
  unfold argminFirst
  rw [cgA_w]
  have hfind : Fin.find (fun i : Fin 3 => ∀ j, (![(0 : ℚ), 180, 40]) i ≤ (![(0 : ℚ), 180, 40]) j) =
      some 0 := by
    rw [Fin.find_eq_some_iff]
    constructor
    · intro j
      fin_cases j <;> norm_num
    · intro j hj
      exact Fin.zero_le j
  rw [hfind]
  rfl

lemma shift_cgA : xr_shift_lon cgA 0 = Except.ok cgAout := by
  have hany : ∃ i, offsetFor 0 (cgA.lon i) ≠ 0 := by
    refine ⟨2, ?_⟩
    norm_num [offsetFor, cgA]
  unfold xr_shift_lon shiftLonCore
  rw [if_pos (by decide : pairsIncr cgA.lon), if_pos hany]
  show Except.ok ({ cgA with
      lon := fun i => shiftedLon cgA.lon 0 (rollIdx i (argminFirst (shiftedLon cgA.lon 0))),
      data := fun i j => cgA.data (rollIdx i (argminFirst (shiftedLon cgA.lon 0))) j }
    : Grid 3 1 ℚ) = _
  rw [cgA_argmin]
  refine congrArg Except.ok ?_
  show Grid.mk "lon" "lat" (fun i => shiftedLon cgA.lon 0 (rollIdx i 0)) ![0]
      (fun i j => cgA.data (rollIdx i 0) j) = cgAout
  unfold cgAout
  simp only [Grid.mk.injEq]
  refine ⟨trivial, trivial, ?_, trivial, ?_⟩
  · funext i
    rw [rollIdx_zero]
    exact congrFun cgA_w i
  · funext i j
    rw [rollIdx_zero]
    rfl


/-- C2 counterexample: the grid with longitudes [0, 180, 400] is strictly
increasing and lies within one wrap of the window [0, 360), yet the shifted
output longitude axis [0, 180, 40] is not monotonic in either direction, so
the claim fails without a span restriction. -/
theorem claim_C2_counterexample :
    pairsIncr cgA.lon ∧ (∀ i, (0 : ℚ) - 360 ≤ cgA.lon i ∧ cgA.lon i < 0 + 720) ∧
    xr_shift_lon cgA 0 = Except.ok cgAout ∧
    ¬ pairsIncr cgAout.lon ∧ ¬ pairsDecr cgAout.lon := by
  refine ⟨by decide, ?_, shift_cgA, by decide, by decide⟩
  intro i
  fin_cases i <;> constructor <;> norm_num [cgA]

/-- C3 counterexample: on the same wide grid, `xr_mask_bounds` raises
ValueError (from the shift-back step) instead of returning masked data, so the
inside/outside sum property fails without a span restriction. -/
theorem claim_C3_counterexample :
    pairsIncr cgA.lon ∧
    xr_mask_bounds cgA (some (0, 360)) (some (-90, 90)) "inside" =
      Except.error XrError.invalidInput := by
  refine ⟨by decide, ?_⟩
  unfold xr_mask_bounds
  simp only [Option.getD_some]
  rw [shift_cgA]
  dsimp only
  rw [maskSelect_inside]
  dsimp only
  rw [xr_shift_lon_err _ _ (by decide)]

/-- C4 counterexample: on the same wide grid the round trip fails: the first
shift succeeds but produces a non-monotonic axis, so the second shift raises
ValueError instead of restoring the grid. -/
theorem claim_C4_counterexample :
    pairsIncr cgA.lon ∧
    (xr_shift_lon cgA 0).bind (fun h => xr_shift_lon h (minVal cgA.lon)) =
      Except.error XrError.invalidInput := by
  refine ⟨by decide, ?_⟩
  rw [shift_cgA]
  show xr_shift_lon cgAout (minVal cgA.lon) = _
  exact xr_shift_lon_err _ _ (by decide)

/-- Witness for C2 on a concrete increasing axis crossing the -180 window. -/
theorem claim_C2_witness :
    (1 ≤ 3) ∧ (pairsIncr wgB.lon ∨ pairsDecr wgB.lon) ∧
    (∀ i, (-180 : ℚ) - 360 ≤ wgB.lon i ∧ wgB.lon i < -180 + 720) ∧
    (∀ i j : Fin 3, wgB.lon i - wgB.lon j < 360) ∧
    (∃ out : Grid 3 1 ℚ, xr_shift_lon wgB (-180) = Except.ok out ∧
      (∃ x : ℕ, x < 3 ∧ ∀ i : Fin 3,
        out.lon i = wgB.lon (rollIdx i x) + offsetFor (-180) (wgB.lon (rollIdx i x)) ∧
        (offsetFor (-180) (wgB.lon (rollIdx i x)) = 360 ∨
          offsetFor (-180) (wgB.lon (rollIdx i x)) = 0 ∨
          offsetFor (-180) (wgB.lon (rollIdx i x)) = -360) ∧
        ((-180 : ℚ) ≤ wgB.lon (rollIdx i x) ∧ wgB.lon (rollIdx i x) < -180 + 360 →
          offsetFor (-180) (wgB.lon (rollIdx i x)) = 0) ∧
        (-180 : ℚ) ≤ out.lon i ∧ out.lon i < -180 + 360 ∧
        (∀ j, out.data i j = wgB.data (rollIdx i x) j)) ∧
      (pairsIncr wgB.lon → pairsIncr out.lon) ∧ (pairsDecr wgB.lon → pairsDecr out.lon)) := by
  refine ⟨by omega, Or.inl (by decide), ?_, ?_, ?_⟩
  · intro i
    fin_cases i <;> constructor <;> norm_num [wgB]
  · intro i j
    fin_cases i <;> fin_cases j <;> norm_num [wgB]
  · exact claim_C2 wgB (-180) (by omega) (Or.inl (by decide))
      (by intro i; fin_cases i <;> constructor <;> norm_num [wgB])
      (by intro i j; fin_cases i <;> fin_cases j <;> norm_num [wgB])

/-- Witness for C3 on a concrete narrow-span grid with concrete bounds. -/
theorem claim_C3_witness :
    (1 ≤ 3) ∧ (pairsIncr wgC.lon ∨ pairsDecr wgC.lon) ∧
    (∀ i j : Fin 3, wgC.lon i - wgC.lon j < 360) ∧
    (∃ (gi go : Grid 3 2 (Option ℚ)),
      xr_mask_bounds wgC (some (15, 200)) (some (-10, 30)) "inside" = Except.ok gi ∧
      xr_mask_bounds wgC (some (15, 200)) (some (-10, 30)) "outside" = Except.ok go ∧
      ∀ i j, (gi.data i j).getD 0 + (go.data i j).getD 0 = wgC.data i j) := by
  refine ⟨by omega, Or.inl (by decide), ?_, ?_⟩
  · intro i j
    fin_cases i <;> fin_cases j <;> norm_num [wgC]
  · exact claim_C3 wgC (15, 200) (-10, 30) (by omega) (Or.inl (by decide))
      (by intro i j; fin_cases i <;> fin_cases j <;> norm_num [wgC])

/-- Witness for C4: a concrete decreasing grid round-trips exactly. -/
theorem claim_C4_witness :
    (1 ≤ 3) ∧ (pairsIncr wgD.lon ∨ pairsDecr wgD.lon) ∧
    (∀ i j : Fin 3, wgD.lon i - wgD.lon j < 360) ∧
    (∃ (g1 g2 : Grid 3 1 ℚ), xr_shift_lon wgD 77 = Except.ok g1 ∧
      xr_shift_lon g1 (minVal wgD.lon) = Except.ok g2 ∧
      g2.lon = wgD.lon ∧ g2.lat = wgD.lat ∧ g2.data = wgD.data) := by
  refine ⟨by omega, Or.inr (by decide), ?_, ?_⟩
  · intro i j
    fin_cases i <;> fin_cases j <;> norm_num [wgD]
  · exact claim_C4 wgD 77 (by omega) (Or.inr (by decide))
      (by intro i j; fin_cases i <;> fin_cases j <;> norm_num [wgD])

lemma wg5_mask :
    xr_mask_bounds wg5 (some (0, 50)) (some (-90, 90)) "inside" =
      Except.ok { wg5 with data := insideData wg5 (0, 50) (-90, 90) } := by
  have hall1 : ∀ i, offsetFor 0 (wg5.lon i) = 0 := by
    intro i
    fin_cases i <;> norm_num [offsetFor, wg5]
  have hmin : minVal wg5.lon = 0 := by
    rw [minVal_of_incr (by omega) (by decide)]
    rfl
  have hall2 : ∀ i, offsetFor (minVal wg5.lon) (wg5.lon i) = 0 := by
    rw [hmin]
    exact hall1
  unfold xr_mask_bounds
  simp only [Option.getD_some]
  rw [xr_shift_lon_noop wg5 0 (Or.inl (by decide)) hall1]
  dsimp only
  rw [maskSelect_inside]
  dsimp only
  rw [xr_shift_lon_noop ({ wg5 with data := insideData wg5 (0, 50) (-90, 90) })
    (minVal wg5.lon) (Or.inl (by decide)) hall2]
  dsimp only
  exact maskFinish_eq_ok rfl rfl rfl rfl

/-- Witness for C5 on a concrete masked grid. -/
theorem claim_C5_witness :
    (pairsIncr wg5.lon ∨ pairsDecr wg5.lon) ∧
    (({ wg5 with data := insideData wg5 (0, 50) (-90, 90) } : Grid 2 1 (Option ℚ)).lon = wg5.lon ∧
      ({ wg5 with data := insideData wg5 (0, 50) (-90, 90) } : Grid 2 1 (Option ℚ)).lat = wg5.lat) :=
  ⟨Or.inl (by decide),
    claim_C5 wg5 (some (0, 50)) (some (-90, 90)) "inside" _ (Or.inl (by decide)) wg5_mask⟩


lemma vget_eq {k : ℕ} (v : Fin k → ℚ) (i : ℕ) (h : i < k) : vget v i = v ⟨i, h⟩ := dif_pos h

lemma extendedArr_incr {k : ℕ} {v : Fin k → ℚ} (hk : 2 ≤ k) (hv : pairsIncr v) :
    pairsIncrUpTo (extendedArr k v) (k + 2) := by
  intro j hj
  unfold extendedArr
  simp only [Nat.add_sub_cancel]
  rcases Nat.eq_zero_or_pos j with rfl | hj0
  · rw [if_pos rfl, if_neg (by omega : ¬ (0 + 1 = 0)), if_pos (by omega : 0 + 1 ≤ k)]
    rw [vget_eq v 0 (by omega), vget_eq v 1 (by omega)]
    have := hv ⟨0, by omega⟩ ⟨1, by omega⟩ rfl
    linarith
  · rcases Nat.lt_or_ge j k with hjk | hjk
    · rw [if_neg (by omega), if_pos (by omega), if_neg (by omega), if_pos (by omega)]
      rw [vget_eq v (j - 1) (by omega), vget_eq v j (by omega)]
      exact hv ⟨j - 1, by omega⟩ ⟨j, by omega⟩ (show j - 1 + 1 = j by omega)
    · have hjeq : j = k := by omega
      subst hjeq
      rw [if_neg (by omega), if_pos le_rfl, if_neg (by omega), if_neg (by omega)]
      rw [vget_eq v (j - 1) (by omega), vget_eq v (j - 2) (by omega)]
      have := hv ⟨j - 2, by omega⟩ ⟨j - 1, by omega⟩ (show j - 2 + 1 = j - 1 by omega)
      linarith

lemma extendedArr_decr {k : ℕ} {v : Fin k → ℚ} (hk : 2 ≤ k) (hv : pairsDecr v) :
    pairsDecrUpTo (extendedArr k v) (k + 2) := by
  intro j hj
  unfold extendedArr
  simp only [Nat.add_sub_cancel]
  rcases Nat.eq_zero_or_pos j with rfl | hj0
  · rw [if_pos rfl, if_neg (by omega : ¬ (0 + 1 = 0)), if_pos (by omega : 0 + 1 ≤ k)]
    rw [vget_eq v 0 (by omega), vget_eq v 1 (by omega)]
    have := hv ⟨0, by omega⟩ ⟨1, by omega⟩ rfl
    linarith
  · rcases Nat.lt_or_ge j k with hjk | hjk
    · rw [if_neg (by omega), if_pos (by omega), if_neg (by omega), if_pos (by omega)]
      rw [vget_eq v (j - 1) (by omega), vget_eq v j (by omega)]
      exact hv ⟨j - 1, by omega⟩ ⟨j, by omega⟩ (show j - 1 + 1 = j by omega)
    · have hjeq : j = k := by omega
      subst hjeq
      rw [if_neg (by omega), if_pos le_rfl, if_neg (by omega), if_neg (by omega)]
      rw [vget_eq v (j - 1) (by omega), vget_eq v (j - 2) (by omega)]
      have := hv ⟨j - 2, by omega⟩ ⟨j - 1, by omega⟩ (show j - 2 + 1 = j - 1 by omega)
      linarith

lemma xWidthQ_pos {k : ℕ} {v : Fin k → ℚ} (hk : 2 ≤ k)
    (hmono : pairsIncr v ∨ pairsDecr v) (i : Fin k) : 0 < xWidthQ v i := by
  have hik := i.isLt
  rcases hmono with hI | hD
  · unfold xWidthQ boundsArr
    rw [if_pos hI]
    have e := extendedArr_incr hk hI
    have e1 := e (i : ℕ) (by omega)
    have e2 := e ((i : ℕ) + 1) (by omega)
    linarith
  · by_cases hI : pairsIncr v
    · exact (pairs_not_both hk hI hD).elim
    · unfold xWidthQ boundsArr
      rw [if_neg hI]
      have e := extendedArr_decr hk hD
      have e1 := e (i : ℕ) (by omega)
      have e2 := e ((i : ℕ) + 1) (by omega)
      linarith

lemma clampLat_mem (t : ℚ) : -90 ≤ clampLat t ∧ clampLat t ≤ 90 := by
  unfold clampLat
  split_ifs <;> constructor <;> linarith

lemma clampLat_mono {a b : ℚ} (h : a ≤ b) : clampLat a ≤ clampLat b := by
  unfold clampLat
  split_ifs <;> linarith

lemma sin_clamp_le {a b : ℚ} (h : a ≤ b) :
    Real.sin ((clampLat a : ℝ) / 180 * Real.pi) ≤
      Real.sin ((clampLat b : ℝ) / 180 * Real.pi) := by
  have hma := clampLat_mem a
  have hmb := clampLat_mem b
  have hc := clampLat_mono h
  have hca1 : (-90 : ℝ) ≤ (clampLat a : ℝ) := by exact_mod_cast hma.1
  have hca2 : (clampLat a : ℝ) ≤ 90 := by exact_mod_cast hma.2
  have hcb1 : (-90 : ℝ) ≤ (clampLat b : ℝ) := by exact_mod_cast hmb.1
  have hcb2 : (clampLat b : ℝ) ≤ 90 := by exact_mod_cast hmb.2
  have hcc : (clampLat a : ℝ) ≤ (clampLat b : ℝ) := by exact_mod_cast hc
  have hpi := Real.pi_pos
  have hm1 : -(Real.pi / 2) ≤ (clampLat a : ℝ) / 180 * Real.pi := by nlinarith
  have hm2 : (clampLat a : ℝ) / 180 * Real.pi ≤ Real.pi / 2 := by nlinarith
  have hm3 : -(Real.pi / 2) ≤ (clampLat b : ℝ) / 180 * Real.pi := by nlinarith
  have hm4 : (clampLat b : ℝ) / 180 * Real.pi ≤ Real.pi / 2 := by nlinarith
  have hxy : (clampLat a : ℝ) / 180 * Real.pi ≤ (clampLat b : ℝ) / 180 * Real.pi := by nlinarith
  exact Real.strictMonoOn_sin.monotoneOn (Set.mem_Icc.mpr ⟨hm1, hm2⟩)
    (Set.mem_Icc.mpr ⟨hm3, hm4⟩) hxy

lemma yWidthR_nonneg {k : ℕ} {w : Fin k → ℚ} (hk : 2 ≤ k)
    (hmono : pairsIncr w ∨ pairsDecr w) (j : Fin k) : 0 ≤ yWidthR w j := by
  have hjk := j.isLt
  rcases hmono with hI | hD
  · unfold yWidthR latBndRad
    rw [if_pos hI]
    have e := extendedArr_incr hk hI
    have hb : boundsArr k w (j : ℕ) ≤ boundsArr k w ((j : ℕ) + 1) := by
      unfold boundsArr
      have e1 := e (j : ℕ) (by omega)
      have e2 := e ((j : ℕ) + 1) (by omega)
      linarith
    linarith [sin_clamp_le hb]
  · by_cases hI : pairsIncr w
    · exact (pairs_not_both hk hI hD).elim
    · unfold yWidthR latBndRad
      rw [if_neg hI]
      have e := extendedArr_decr hk hD
      have hb : boundsArr k w ((j : ℕ) + 1) ≤ boundsArr k w (j : ℕ) := by
        unfold boundsArr
        have e1 := e (j : ℕ) (by omega)
        have e2 := e ((j : ℕ) + 1) (by omega)
        linarith
      linarith [sin_clamp_le hb]

lemma xr_area_eq_ok {n m : ℕ} (g : Grid n m ℚ) (hn : 2 ≤ n) (hm : 2 ≤ m)
    (hlon : pairsIncr g.lon ∨ pairsDecr g.lon) (hlat : pairsIncr g.lat ∨ pairsDecr g.lat) :
    xr_area g =
      Except.ok (Grid.mk g.lonName g.latName g.lon g.lat (areaDataOf g.lon g.lat)) := by
  have hext : pairsIncrUpTo (extendedArr n g.lon) (n + 2) ∨
      pairsDecrUpTo (extendedArr n g.lon) (n + 2) :=
    hlon.imp (extendedArr_incr hn) (extendedArr_decr hn)
  have hx : ¬ ∃ i : Fin n, xWidthQ g.lon i < 0 := by
    push_neg
    intro i
    exact le_of_lt (xWidthQ_pos hn hlon i)
  have hy : ¬ ∃ j : Fin m, yWidthR g.lat j < 0 := by
    push_neg
    intro j
    exact yWidthR_nonneg hm hlat j
  unfold xr_area
  rw [if_pos hlon, if_pos hlat, if_pos hext, if_neg hx, if_neg hy,
    check_ok_true g (Grid.mk g.lonName g.latName g.lon g.lat (areaDataOf g.lon g.lat))
      rfl rfl rfl rfl]


/-- C8: with strictly monotonic longitude and latitude axes (at least two
points each), `xr_area` reaches none of its `RuntimeError` branches: it
returns an area grid whose names and coordinate axes equal the input's. -/
theorem claim_C8 {n m : ℕ} (g : Grid n m ℚ) (hn : 2 ≤ n) (hm : 2 ≤ m)
    (hlon : pairsIncr g.lon ∨ pairsDecr g.lon)
    (hlat : pairsIncr g.lat ∨ pairsDecr g.lat) :
    ∃ a : Grid n m ℝ, xr_area g = Except.ok a ∧ a.lonName = g.lonName ∧
      a.latName = g.latName ∧ a.lon = g.lon ∧ a.lat = g.lat := by
  exact ⟨Grid.mk g.lonName g.latName g.lon g.lat (areaDataOf g.lon g.lat),
    xr_area_eq_ok g hn hm hlon hlat, rfl, rfl, rfl, rfl⟩

/-- Witness for C8 on a concrete increasing 2x2 grid. -/
theorem claim_C8_witness :
    (2 ≤ 2 ∧ (pairsIncr cw8.lon ∨ pairsDecr cw8.lon) ∧
      (pairsIncr cw8.lat ∨ pairsDecr cw8.lat)) ∧
    ∃ a : Grid 2 2 ℝ, xr_area cw8 = Except.ok a ∧ a.lonName = cw8.lonName ∧
      a.latName = cw8.latName ∧ a.lon = cw8.lon ∧ a.lat = cw8.lat :=
  ⟨⟨le_rfl, Or.inl (by decide), Or.inl (by decide)⟩,
    claim_C8 cw8 (by omega) (by omega) (Or.inl (by decide)) (Or.inl (by decide))⟩

/-- C10: the area data computed by `xr_area` depends only on the longitude and
latitude coordinate vectors: two grids with elementwise-equal axes yield
elementwise-equal area data (and identical error outcomes), whatever their
names or data values. -/
theorem claim_C10 {n m : ℕ} (g1 g2 : Grid n m ℚ)
    (hlon : g1.lon = g2.lon) (hlat : g1.lat = g2.lat) :
    Except.map Grid.data (xr_area g1) = Except.map Grid.data (xr_area g2) := by
  unfold xr_area
  rw [hlon, hlat]
  by_cases h1 : pairsIncr g2.lon ∨ pairsDecr g2.lon
  · rw [if_pos h1, if_pos h1]
    by_cases h2 : pairsIncr g2.lat ∨ pairsDecr g2.lat
    · rw [if_pos h2, if_pos h2]
      by_cases h3 : pairsIncrUpTo (extendedArr n g2.lon) (n + 2) ∨
          pairsDecrUpTo (extendedArr n g2.lon) (n + 2)
      · rw [if_pos h3, if_pos h3]
        by_cases h4 : ∃ i : Fin n, xWidthQ g2.lon i < 0
        · rw [if_pos h4, if_pos h4]
        · rw [if_neg h4, if_neg h4]
          by_cases h5 : ∃ j : Fin m, yWidthR g2.lat j < 0
          · rw [if_pos h5, if_pos h5]
          · rw [if_neg h5, if_neg h5]
            rw [check_ok_true g1
              (Grid.mk g1.lonName g1.latName g2.lon g2.lat (areaDataOf g2.lon g2.lat))
              rfl rfl hlon.symm hlat.symm]
            rw [check_ok_true g2
              (Grid.mk g2.lonName g2.latName g2.lon g2.lat (areaDataOf g2.lon g2.lat))
              rfl rfl rfl rfl]
            rfl
      · rw [if_neg h3, if_neg h3]
    · rw [if_neg h2, if_neg h2]
  · rw [if_neg h1, if_neg h1]

/-- Witness for C10 on two concrete grids sharing axes but with different
names and data. -/
theorem claim_C10_witness :
    cwX.lon = cwY.lon ∧ cwX.lat = cwY.lat ∧
      Except.map Grid.data (xr_area cwX) = Except.map Grid.data (xr_area cwY) :=
  ⟨rfl, rfl, claim_C10 cwX cwY rfl rfl⟩


lemma extendedArr_linear {k : ℕ} (hk : 2 ≤ k) (a d : ℚ) (v : Fin k → ℚ)
    (hv : ∀ i : Fin k, v i = a + d * (i : ℚ)) (j : ℕ) (hj : j ≤ k + 1) :
    extendedArr k v j = a - d + d * (j : ℚ) := by
  unfold extendedArr
  rcases Nat.eq_zero_or_pos j with rfl | hj0
  · rw [if_pos rfl, vget_eq v 0 (by omega), vget_eq v 1 (by omega), hv, hv]
    push_cast
    ring
  · rcases Nat.lt_or_ge j (k + 1) with hjk | hjk
    · rw [if_neg (by omega), if_pos (by omega), vget_eq v (j - 1) (by omega), hv]
      rw [show ((⟨j - 1, by omega⟩ : Fin k) : ℚ) = ((j - 1 : ℕ) : ℚ) from rfl,
        Nat.cast_sub (by omega)]
      push_cast
      ring
    · have hjeq : j = k + 1 := by omega
      subst hjeq
      rw [if_neg (by omega), if_neg (by omega), vget_eq v (k - 1) (by omega),
        vget_eq v (k - 2) (by omega), hv, hv]
      rw [show ((⟨k - 1, by omega⟩ : Fin k) : ℚ) = ((k - 1 : ℕ) : ℚ) from rfl,
        show ((⟨k - 2, by omega⟩ : Fin k) : ℚ) = ((k - 2 : ℕ) : ℚ) from rfl,
        Nat.cast_sub (by omega), Nat.cast_sub (by omega)]
      push_cast
      ring

lemma boundsArr_linear {k : ℕ} (hk : 2 ≤ k) (a d : ℚ) (v : Fin k → ℚ)
    (hv : ∀ i : Fin k, v i = a + d * (i : ℚ)) (j : ℕ) (hj : j ≤ k) :
    boundsArr k v j = a - d / 2 + d * (j : ℚ) := by
  unfold boundsArr
  rw [extendedArr_linear hk a d v hv j (by omega),
    extendedArr_linear hk a d v hv (j + 1) (by omega)]
  push_cast
  ring

lemma pairsIncr_linear {k : ℕ} (a d : ℚ) (hd : 0 < d) (v : Fin k → ℚ)
    (hv : ∀ i : Fin k, v i = a + d * (i : ℚ)) : pairsIncr v := by
  intro i j hij
  rw [hv, hv]
  have hc : (i : ℚ) + 1 = (j : ℚ) := by exact_mod_cast congrArg (Nat.cast : ℕ → ℚ) hij
  nlinarith

lemma xWidthQ_linear {k : ℕ} (hk : 2 ≤ k) (a d : ℚ) (hd : 0 < d) (v : Fin k → ℚ)
    (hv : ∀ i : Fin k, v i = a + d * (i : ℚ)) (i : Fin k) : xWidthQ v i = d := by
  unfold xWidthQ
  rw [if_pos (pairsIncr_linear a d hd v hv),
    boundsArr_linear hk a d v hv ((i : ℕ) + 1) (by omega),
    boundsArr_linear hk a d v hv (i : ℕ) (by omega)]
  push_cast
  ring

lemma yWidth_sum {m : ℕ} {w : Fin m → ℚ} (hI : pairsIncr w) :
    ∑ j : Fin m, yWidthR w j =
      Real.sin (latBndRad m w m) - Real.sin (latBndRad m w 0) := by
  unfold yWidthR
  simp only [if_pos hI]
  rw [Fin.sum_univ_eq_sum_range
    (fun jj => Real.sin (latBndRad m w (jj + 1)) - Real.sin (latBndRad m w jj)) m]
  exact Finset.sum_range_sub (fun jj => Real.sin (latBndRad m w jj)) m

lemma areaDataOf_global_sum {n m : ℕ} (hn : 2 ≤ n) (hm : 2 ≤ m)
    (lon0 : ℚ) (lonV : Fin n → ℚ) (latV : Fin m → ℚ)
    (hlon : ∀ i : Fin n, lonV i = lon0 + (360 / (n : ℚ)) * (i : ℚ))
    (hlat : ∀ j : Fin m, latV j = -90 + (180 / ((m : ℚ) - 1)) * (j : ℚ)) :
    ∑ i : Fin n, ∑ j : Fin m, areaDataOf lonV latV i j =
      areaRadius ^ 2 * 4 * Real.pi := by
  have hnQ : (0 : ℚ) < (n : ℚ) := by exact_mod_cast (by omega : 0 < n)
  have hmQ : (0 : ℚ) < (m : ℚ) - 1 := by
    have : (2 : ℚ) ≤ (m : ℚ) := by exact_mod_cast hm
    linarith
  have hdx : (0 : ℚ) < 360 / (n : ℚ) := by positivity
  have hdy : (0 : ℚ) < 180 / ((m : ℚ) - 1) := by positivity
  have hxw : ∀ i : Fin n, xWidthQ lonV i = 360 / (n : ℚ) :=
    xWidthQ_linear hn lon0 _ hdx lonV hlon
  have hlatI : pairsIncr latV := pairsIncr_linear (-90) _ hdy latV hlat
  have hb0 : boundsArr m latV 0 = -90 - (180 / ((m : ℚ) - 1)) / 2 := by
    rw [boundsArr_linear hm (-90) _ latV hlat 0 (by omega)]
    push_cast
    ring
  have hbm : boundsArr m latV m = 90 + (180 / ((m : ℚ) - 1)) / 2 := by
    rw [boundsArr_linear hm (-90) _ latV hlat m le_rfl]
    have hne : (m : ℚ) - 1 ≠ 0 := ne_of_gt hmQ
    field_simp
    ring
  have hc0 : clampLat (boundsArr m latV 0) = -90 := by
    rw [hb0]
    unfold clampLat
    rw [if_pos (by linarith)]
  have hcm : clampLat (boundsArr m latV m) = 90 := by
    rw [hbm]
    unfold clampLat
    rw [if_neg (by linarith), if_pos (by linarith)]
  have hs0 : Real.sin (latBndRad m latV 0) = -1 := by
    unfold latBndRad
    rw [hc0]
    rw [show ((((-90 : ℚ)) : ℝ) / 180 * Real.pi) = -(Real.pi / 2) by push_cast; ring]
    rw [Real.sin_neg, Real.sin_pi_div_two]
  have hsm : Real.sin (latBndRad m latV m) = 1 := by
    unfold latBndRad
    rw [hcm]
    rw [show ((((90 : ℚ)) : ℝ) / 180 * Real.pi) = Real.pi / 2 by push_cast; ring]
    rw [Real.sin_pi_div_two]
  have hysum : ∑ j : Fin m, yWidthR latV j = 2 := by
    rw [yWidth_sum hlatI, hs0, hsm]
    ring
  have hinner : ∀ i : Fin n, ∑ j : Fin m, areaDataOf lonV latV i j =
      areaRadius ^ 2 * (((360 / (n : ℚ) : ℚ) : ℝ) / 180 * Real.pi) * 2 := by
    intro i
    have h1 : ∑ j : Fin m, areaDataOf lonV latV i j =
        ∑ j : Fin m,
          (areaRadius ^ 2 * (((360 / (n : ℚ) : ℚ) : ℝ) / 180 * Real.pi)) *
            yWidthR latV j := by
      refine Finset.sum_congr rfl fun j hj => ?_
      unfold areaDataOf
      rw [hxw i]
      ring
    rw [h1, ← Finset.mul_sum, hysum]
  calc ∑ i : Fin n, ∑ j : Fin m, areaDataOf lonV latV i j
      = ∑ i : Fin n,
          areaRadius ^ 2 * (((360 / (n : ℚ) : ℚ) : ℝ) / 180 * Real.pi) * 2 :=
        Finset.sum_congr rfl fun i hi => hinner i
    _ = (n : ℝ) *
          (areaRadius ^ 2 * (((360 / (n : ℚ) : ℚ) : ℝ) / 180 * Real.pi) * 2) := by
        rw [Finset.sum_const, Finset.card_univ, Fintype.card_fin, nsmul_eq_mul]
    _ = areaRadius ^ 2 * 4 * Real.pi := by
        have hnR : ((n : ℚ) : ℝ) ≠ 0 := by
          exact_mod_cast ne_of_gt hnQ
        push_cast
        push_cast at hnR
        field_simp
        ring


/-- C1: on a regular global grid — longitudes evenly spaced with step 360/n
(full circle), latitudes evenly spaced from -90 to 90 — `xr_area` succeeds and
the cell areas sum exactly to the sphere surface 4*pi*R^2 with R = 6371000 m;
in particular the total is within 1e-4 percent of it. -/
theorem claim_C1 {n m : ℕ} (g : Grid n m ℚ) (hn : 2 ≤ n) (hm : 2 ≤ m) (lon0 : ℚ)
    (hlon : ∀ i : Fin n, g.lon i = lon0 + (360 / (n : ℚ)) * (i : ℚ))
    (hlat : ∀ j : Fin m, g.lat j = -90 + (180 / ((m : ℚ) - 1)) * (j : ℚ)) :
    ∃ a : Grid n m ℝ, xr_area g = Except.ok a ∧
      ∑ i : Fin n, ∑ j : Fin m, a.data i j = areaRadius ^ 2 * 4 * Real.pi ∧
      |∑ i : Fin n, ∑ j : Fin m, a.data i j - areaRadius ^ 2 * 4 * Real.pi| ≤
        (1 / 10 ^ 6) * (areaRadius ^ 2 * 4 * Real.pi) := by
  have hnQ : (0 : ℚ) < (n : ℚ) := by exact_mod_cast (by omega : 0 < n)
  have hmQ : (0 : ℚ) < (m : ℚ) - 1 := by
    have : (2 : ℚ) ≤ (m : ℚ) := by exact_mod_cast hm
    linarith
  have hlonI : pairsIncr g.lon := pairsIncr_linear lon0 _ (by positivity) g.lon hlon
  have hlatI : pairsIncr g.lat := pairsIncr_linear (-90) _ (by positivity) g.lat hlat
  refine ⟨Grid.mk g.lonName g.latName g.lon g.lat (areaDataOf g.lon g.lat),
    xr_area_eq_ok g hn hm (Or.inl hlonI) (Or.inl hlatI), ?_, ?_⟩
  · exact areaDataOf_global_sum hn hm lon0 g.lon g.lat hlon hlat
  · rw [areaDataOf_global_sum hn hm lon0 g.lon g.lat hlon hlat, sub_self, abs_zero]
    have hpi := Real.pi_pos
    have hR : (0 : ℝ) < areaRadius := by unfold areaRadius; norm_num
    positivity

/-- Witness for C1 on the 144x96 grid named in the claim (2.5-degree
longitudes from 0 to 357.5, latitudes from -90 to 90). -/
theorem claim_C1_witness :
    ((∀ i : Fin 144, gC1.lon i = 0 + (360 / ((144 : ℕ) : ℚ)) * (i : ℚ)) ∧
      (∀ j : Fin 96, gC1.lat j = -90 + (180 / (((96 : ℕ) : ℚ) - 1)) * (j : ℚ))) ∧
    ∃ a : Grid 144 96 ℝ, xr_area gC1 = Except.ok a ∧
      ∑ i : Fin 144, ∑ j : Fin 96, a.data i j = areaRadius ^ 2 * 4 * Real.pi ∧
      |∑ i : Fin 144, ∑ j : Fin 96, a.data i j - areaRadius ^ 2 * 4 * Real.pi| ≤
        (1 / 10 ^ 6) * (areaRadius ^ 2 * 4 * Real.pi) :=
  ⟨⟨fun i => rfl, fun j => rfl⟩,
    claim_C1 gC1 (by decide) (by decide) 0 (fun i => rfl) (fun j => rfl)⟩


lemma stat_unknown_ok {n m : ℕ} (g : Grid n m ℚ) (hn : 2 ≤ n) (hm : 2 ≤ m)
    (hname1 : g.lonName = "lon") (hname2 : g.latName = "lat")
    (hlon : pairsIncr g.lon ∨ pairsDecr g.lon)
    (hlat : pairsIncr g.lat ∨ pairsDecr g.lat)
    (stat : String) (hs1 : stat ≠ "sum") (hs2 : stat ≠ "mean") :
    xr_area_weighted_stat g stat none none "lon" "lat" = Except.ok (-1) := by
  unfold xr_area_weighted_stat
  rw [← hname1, ← hname2, if_pos ⟨rfl, rfl⟩, if_neg (by simp),
    xr_area_eq_ok g hn hm hlon hlat]
  dsimp only
  rw [check_ok_true g (Grid.mk g.lonName g.latName g.lon g.lat (areaDataOf g.lon g.lat))
      rfl rfl rfl rfl]
  dsimp only
  rw [if_neg hs1, if_neg hs2]

/-- C6 counterexample to "unknown stat fails with InvalidInput": on a plain
2x2 grid with the default coordinate names, stat "median" returns the value
-1 and no error at all. -/
theorem claim_C6_counterexample :
    xr_area_weighted_stat cg6 "median" none none "lon" "lat" = Except.ok (-1) ∧
    ∀ e : XrError,
      xr_area_weighted_stat cg6 "median" none none "lon" "lat" ≠ Except.error e := by
  have h := stat_unknown_ok cg6 (by omega) (by omega) rfl rfl
    (Or.inl (by decide)) (Or.inl (by decide)) "median" (by decide) (by decide)
  refine ⟨h, fun e he => ?_⟩
  rw [h] at he
  exact Except.noConfusion he

/-- C6 (amended): with the default coordinate names, monotonic axes and no
bounds, a stat other than "sum" and "mean" does not raise: the call returns
the sentinel value -1 (the source warns and `return -1`). -/
theorem claim_C6 {n m : ℕ} (g : Grid n m ℚ) (hn : 2 ≤ n) (hm : 2 ≤ m)
    (hname1 : g.lonName = "lon") (hname2 : g.latName = "lat")
    (hlon : pairsIncr g.lon ∨ pairsDecr g.lon)
    (hlat : pairsIncr g.lat ∨ pairsDecr g.lat)
    (stat : String) (hs1 : stat ≠ "sum") (hs2 : stat ≠ "mean") :
    xr_area_weighted_stat g stat none none "lon" "lat" = Except.ok (-1) :=
  stat_unknown_ok g hn hm hname1 hname2 hlon hlat stat hs1 hs2

/-- Witness for C6 on a concrete grid with stat "variance". -/
theorem claim_C6_witness :
    ("variance" ≠ "sum" ∧ "variance" ≠ "mean") ∧
    xr_area_weighted_stat cg6 "variance" none none "lon" "lat" = Except.ok (-1) :=
  ⟨⟨by decide, by decide⟩,
    claim_C6 cg6 (by omega) (by omega) rfl rfl (Or.inl (by decide))
      (Or.inl (by decide)) "variance" (by decide) (by decide)⟩

/-- C7: a longitude axis that neither strictly increases nor strictly
decreases makes `xr_shift_lon`, `xr_area` and `xr_mask_bounds` all fail at
once with the `ValueError` embedding, and a non-monotonic latitude axis makes
`xr_area` fail the same way; no value is returned in any of these cases. -/
theorem claim_C7 {n m : ℕ} (g : Grid n m ℚ) :
    (¬ (pairsIncr g.lon ∨ pairsDecr g.lon) →
      (∀ M : ℚ, xr_shift_lon g M = Except.error XrError.invalidInput) ∧
      xr_area g = Except.error XrError.invalidInput ∧
      ∀ (lb tb : Option (ℚ × ℚ)) (sh : String),
        xr_mask_bounds g lb tb sh = Except.error XrError.invalidInput) ∧
    (¬ (pairsIncr g.lat ∨ pairsDecr g.lat) →
      xr_area g = Except.error XrError.invalidInput) := by
  constructor
  · intro h
    refine ⟨fun M => xr_shift_lon_err g M h, ?_, ?_⟩
    · unfold xr_area
      rw [if_neg h]
    · intro lb tb sh
      simp only [xr_mask_bounds]
      rw [xr_shift_lon_err g _ h]
  · intro h
    unfold xr_area
    by_cases hlon : pairsIncr g.lon ∨ pairsDecr g.lon
    · rw [if_pos hlon, if_neg h]
    · rw [if_neg hlon]

/-- Witness for C7 on a concrete grid whose longitudes and latitudes both
zig-zag. -/
theorem claim_C7_witness :
    (¬ (pairsIncr cg7.lon ∨ pairsDecr cg7.lon)) ∧
    (¬ (pairsIncr cg7.lat ∨ pairsDecr cg7.lat)) ∧
    xr_shift_lon cg7 (-180) = Except.error XrError.invalidInput ∧
    xr_area cg7 = Except.error XrError.invalidInput ∧
    xr_mask_bounds cg7 none none "inside" = Except.error XrError.invalidInput :=
  ⟨by decide, by decide,
    ((claim_C7 cg7).1 (by decide)).1 (-180),
    ((claim_C7 cg7).2 (by decide)),
    ((claim_C7 cg7).1 (by decide)).2.2 none none "inside"⟩

/-- C9 (refuting the claim): with non-default dimension names, the coordinate
cross-check on source line 234 — which omits `lon_name`/`lat_name` and so looks
up the literal defaults — raises `KeyError` instead of merely warning; the
aggregation never returns a value. -/
theorem claim_C9 :
    xr_area_weighted_stat gRenamed "mean" none none "longitude" "latitude" =
      Except.error XrError.keyNotFound := by
  unfold xr_area_weighted_stat
  rw [if_pos ⟨rfl, rfl⟩, if_neg (by simp),
    xr_area_eq_ok gRenamed (by omega) (by omega) (Or.inl (by decide))
      (Or.inl (by decide))]
  rfl

end Climapy
